import Mathlib

/-!
Verification of the kaspa-dapp client-side encryption, key-derivation and
shareable-link subsystem, plus the short-URL Express service.

Conventions of the embedding:
* A JavaScript string is modelled as a `List Nat` of Unicode scalar values
  (one `Nat` per character, each below `0x110000` and outside the surrogate
  range for well-formed text).  Byte buffers (`Uint8Array`) are `List Nat`
  with every element below 256.
* `btoa`/`atob` are modelled by `b64Encode`/`b64Decode` over character codes
  (base64 text is pure ASCII, so character codes and bytes coincide).
* `TextEncoder.encode` / `TextDecoder.decode` are `utf8Encode` / `utf8Decode`.
* Randomness (`randomBytes`), wall-clock time (`Date.now()`) and wallet
  responses are passed in explicitly as parameters.
* A thrown JavaScript exception is an `Except`/`Option` failure value.
-/

/-- Character codes of a Lean string literal; used to write the JS string
constants of the source readably. -/
def strCodes (s : String) : List Nat := s.toList.map Char.toNat

/-- The base64 alphabet of `btoa`: index 0..63 to ASCII code. -/
def b64Alphabet (v : Nat) : Nat :=
  if v < 26 then 65 + v
  else if v < 52 then 97 + (v - 26)
  else if v < 62 then 48 + (v - 52)
  else if v = 62 then 43
  else 47

/-- Inverse of the base64 alphabet (`atob`); `none` on a character outside
the alphabet. -/
def b64Val (c : Nat) : Option Nat :=
  if 65 ≤ c ∧ c ≤ 90 then some (c - 65)
  else if 97 ≤ c ∧ c ≤ 122 then some (26 + (c - 97))
  else if 48 ≤ c ∧ c ≤ 57 then some (52 + (c - 48))
  else if c = 43 then some 62
  else if c = 47 then some 63
  else none

/-- `btoa` on a byte list: standard base64 with `=` (code 61) padding. -/
def b64Encode : List Nat → List Nat
  | [] => []
  | [b1] => [b64Alphabet (b1 / 4), b64Alphabet (b1 % 4 * 16), 61, 61]
  | [b1, b2] =>
      [b64Alphabet (b1 / 4), b64Alphabet (b1 % 4 * 16 + b2 / 16),
       b64Alphabet (b2 % 16 * 4), 61]
  | b1 :: b2 :: b3 :: rest =>
      b64Alphabet (b1 / 4) :: b64Alphabet (b1 % 4 * 16 + b2 / 16) ::
      b64Alphabet (b2 % 16 * 4 + b3 / 64) :: b64Alphabet (b3 % 64) ::
      b64Encode rest

/-- `atob` on a character-code list: `none` models the thrown
`InvalidCharacterError`. -/
def b64Decode : List Nat → Option (List Nat)
  | [] => some []
  | c1 :: c2 :: c3 :: c4 :: rest =>
      if c3 = 61 then
        if c4 = 61 ∧ rest = [] then
          match b64Val c1, b64Val c2 with
          | some v1, some v2 => some [v1 * 4 + v2 / 16]
          | _, _ => none
        else none
      else if c4 = 61 then
        if rest = [] then
          match b64Val c1, b64Val c2, b64Val c3 with
          | some v1, some v2, some v3 =>
              some [v1 * 4 + v2 / 16, v2 % 16 * 16 + v3 / 4]
          | _, _, _ => none
        else none
      else
        match b64Val c1, b64Val c2, b64Val c3, b64Val c4, b64Decode rest with
        | some v1, some v2, some v3, some v4, some bs =>
            some ((v1 * 4 + v2 / 16) :: (v2 % 16 * 16 + v3 / 4) ::
                  (v3 % 4 * 64 + v4) :: bs)
        | _, _, _, _, _ => none
  | _ => none

theorem b64Val_alphabet : ∀ v < 64, b64Val (b64Alphabet v) = some v := by decide

theorem b64Alphabet_ne_61 : ∀ v < 64, b64Alphabet v ≠ 61 := by decide

theorem b64Encode_decode :
    ∀ (bs : List Nat), (∀ b ∈ bs, b < 256) → b64Decode (b64Encode bs) = some bs := by
  intro bs
  induction bs using b64Encode.induct with
  | case1 =>
      intro _; simp [b64Encode, b64Decode]
  | case2 b1 =>
      intro h
      have hb1 : b1 < 256 := h b1 (by simp)
      have e1 := b64Val_alphabet (b1 / 4) (by omega)
      have e2 := b64Val_alphabet (b1 % 4 * 16) (by omega)
      simp [b64Encode, b64Decode, e1, e2]
      omega
  | case3 b1 b2 =>
      intro h
      have hb1 : b1 < 256 := h b1 (by simp)
      have hb2 : b2 < 256 := h b2 (by simp)
      have e1 := b64Val_alphabet (b1 / 4) (by omega)
      have e2 := b64Val_alphabet (b1 % 4 * 16 + b2 / 16) (by omega)
      have e3 := b64Val_alphabet (b2 % 16 * 4) (by omega)
      have hne := b64Alphabet_ne_61 (b2 % 16 * 4) (by omega)
      simp [b64Encode, b64Decode, e1, e2, e3, hne]
      omega
  | case4 b1 b2 b3 rest ih =>
      intro h
      have hb1 : b1 < 256 := h b1 (by simp)
      have hb2 : b2 < 256 := h b2 (by simp)
      have hb3 : b3 < 256 := h b3 (by simp)
      have e1 := b64Val_alphabet (b1 / 4) (by omega)
      have e2 := b64Val_alphabet (b1 % 4 * 16 + b2 / 16) (by omega)
      have e3 := b64Val_alphabet (b2 % 16 * 4 + b3 / 64) (by omega)
      have e4 := b64Val_alphabet (b3 % 64) (by omega)
      have hne3 := b64Alphabet_ne_61 (b2 % 16 * 4 + b3 / 64) (by omega)
      have hne4 := b64Alphabet_ne_61 (b3 % 64) (by omega)
      have ih' := ih (fun b hb => h b (by simp [hb]))
      simp [b64Encode, b64Decode, e1, e2, e3, e4, hne3, hne4, ih']
      omega

/-- The character replacement of `compressString`: plus to minus and slash to
underscore (afterwards the padding `=` is stripped). -/
def urlSafeChar (c : Nat) : Nat :=
  if c = 43 then 45 else if c = 47 then 95 else c

/-- `base64.replace(/\+/g,'-').replace(/\//g,'_').replace(/=/g,'')`. -/
def toUrlSafe (l : List Nat) : List Nat :=
  (l.map urlSafeChar).filter (· ≠ 61)

/-- The inverse character replacement of `decompressString`. -/
def unUrlSafeChar (c : Nat) : Nat :=
  if c = 45 then 43 else if c = 95 then 47 else c

/-- `while (base64.length % 4) base64 += '='`: restore base64 padding. -/
def b64Pad (l : List Nat) : List Nat :=
  l ++ List.replicate ((4 - l.length % 4) % 4) 61

/-- The base64-restoring step of `decompressString`. -/
def fromUrlSafe (l : List Nat) : List Nat :=
  b64Pad (l.map unUrlSafeChar)

theorem urlSafe_alphabet_round :
    ∀ v < 64, unUrlSafeChar (urlSafeChar (b64Alphabet v)) = b64Alphabet v ∧
      urlSafeChar (b64Alphabet v) ≠ 61 := by decide

theorem b64Pad_cons4 (a b c d : Nat) (l : List Nat) :
    b64Pad (a :: b :: c :: d :: l) = a :: b :: c :: d :: b64Pad l := by
  simp only [b64Pad, List.length_cons, List.cons_append]
  have : (4 - (l.length + 1 + 1 + 1 + 1) % 4) % 4 = (4 - l.length % 4) % 4 := by
    omega
  rw [this]

theorem urlSafeChar_61 : urlSafeChar 61 = 61 := by decide

theorem fromUrlSafe_toUrlSafe :
    ∀ (bs : List Nat), (∀ b ∈ bs, b < 256) →
      fromUrlSafe (toUrlSafe (b64Encode bs)) = b64Encode bs := by
  intro bs
  induction bs using b64Encode.induct with
  | case1 =>
      intro _; simp [b64Encode, toUrlSafe, fromUrlSafe, b64Pad]
  | case2 b1 =>
      intro h
      have hb1 : b1 < 256 := h b1 (by simp)
      have r1 := urlSafe_alphabet_round (b1 / 4) (by omega)
      have r2 := urlSafe_alphabet_round (b1 % 4 * 16) (by omega)
      simp [b64Encode, toUrlSafe, fromUrlSafe, b64Pad, urlSafeChar_61,
        r1.1, r1.2, r2.1, r2.2, List.replicate]
  | case3 b1 b2 =>
      intro h
      have hb1 : b1 < 256 := h b1 (by simp)
      have hb2 : b2 < 256 := h b2 (by simp)
      have r1 := urlSafe_alphabet_round (b1 / 4) (by omega)
      have r2 := urlSafe_alphabet_round (b1 % 4 * 16 + b2 / 16) (by omega)
      have r3 := urlSafe_alphabet_round (b2 % 16 * 4) (by omega)
      simp [b64Encode, toUrlSafe, fromUrlSafe, b64Pad, urlSafeChar_61,
        r1.1, r1.2, r2.1, r2.2, r3.1, r3.2, List.replicate]
  | case4 b1 b2 b3 rest ih =>
      intro h
      have hb1 : b1 < 256 := h b1 (by simp)
      have hb2 : b2 < 256 := h b2 (by simp)
      have hb3 : b3 < 256 := h b3 (by simp)
      have r1 := urlSafe_alphabet_round (b1 / 4) (by omega)
      have r2 := urlSafe_alphabet_round (b1 % 4 * 16 + b2 / 16) (by omega)
      have r3 := urlSafe_alphabet_round (b2 % 16 * 4 + b3 / 64) (by omega)
      have r4 := urlSafe_alphabet_round (b3 % 64) (by omega)
      have ih' := ih (fun b hb => h b (by simp [hb]))
      simp only [b64Encode, toUrlSafe, fromUrlSafe, List.map_cons,
        List.filter_cons] at ih' ⊢
      rw [show (decide ¬urlSafeChar (b64Alphabet (b1 / 4)) = 61) = true by
            simp [r1.2],
          show (decide ¬urlSafeChar (b64Alphabet (b1 % 4 * 16 + b2 / 16)) = 61) = true by
            simp [r2.2],
          show (decide ¬urlSafeChar (b64Alphabet (b2 % 16 * 4 + b3 / 64)) = 61) = true by
            simp [r3.2],
          show (decide ¬urlSafeChar (b64Alphabet (b3 % 64)) = 61) = true by
            simp [r4.2]]
      simp only [if_true, List.map_cons, r1.1, r2.1, r3.1, r4.1]
      rw [b64Pad_cons4, ih']

/-- A Unicode scalar value: in range and not a UTF-16 surrogate. -/
def ValidScalar (c : Nat) : Prop :=
  c < 1114112 ∧ ¬(55296 ≤ c ∧ c < 57344)

instance (c : Nat) : Decidable (ValidScalar c) := by
  unfold ValidScalar; infer_instance

/-- UTF-8 encoding of one scalar value (`TextEncoder`). -/
def utf8EncodeChar (c : Nat) : List Nat :=
  if c < 128 then [c]
  else if c < 2048 then [192 + c / 64, 128 + c % 64]
  else if c < 65536 then [224 + c / 4096, 128 + c / 64 % 64, 128 + c % 64]
  else [240 + c / 262144, 128 + c / 4096 % 64, 128 + c / 64 % 64, 128 + c % 64]

/-- `TextEncoder.encode` over a scalar-value string. -/
def utf8Encode (cs : List Nat) : List Nat := cs.flatMap utf8EncodeChar


/-- One step of strict UTF-8 decoding, fuel-bounded so that it is structurally
recursive and kernel-computable.  `fuel` is an upper bound on the number of
characters still to decode. -/
def utf8DecodeAux : Nat → List Nat → Option (List Nat)
  | _, [] => some []
  | 0, _ :: _ => none
  | fuel + 1, b1 :: t =>
    if b1 < 128 then (utf8DecodeAux fuel t).map (b1 :: ·)
    else if b1 < 192 then none
    else if b1 < 224 then
      match t with
      | b2 :: t2 =>
          if 128 ≤ b2 ∧ b2 < 192 then
            let c := (b1 - 192) * 64 + (b2 - 128)
            if c < 128 then none else (utf8DecodeAux fuel t2).map (c :: ·)
          else none
      | [] => none
    else if b1 < 240 then
      match t with
      | b2 :: b3 :: t3 =>
          if (128 ≤ b2 ∧ b2 < 192) ∧ (128 ≤ b3 ∧ b3 < 192) then
            let c := (b1 - 224) * 4096 + (b2 - 128) * 64 + (b3 - 128)
            if c < 2048 ∨ (55296 ≤ c ∧ c < 57344) then none
            else (utf8DecodeAux fuel t3).map (c :: ·)
          else none
      | _ => none
    else if b1 < 248 then
      match t with
      | b2 :: b3 :: b4 :: t4 =>
          if (128 ≤ b2 ∧ b2 < 192) ∧ (128 ≤ b3 ∧ b3 < 192) ∧
             (128 ≤ b4 ∧ b4 < 192) then
            let c := (b1 - 240) * 262144 + (b2 - 128) * 4096 +
                     (b3 - 128) * 64 + (b4 - 128)
            if c < 65536 ∨ 1114112 ≤ c then none
            else (utf8DecodeAux fuel t4).map (c :: ·)
          else none
      | _ => none
    else none

/-- Strict UTF-8 decoding (`TextDecoder.decode`); `none` on malformed input.
On round-trip inputs the bytes are always well-formed. -/
def utf8Decode (l : List Nat) : Option (List Nat) := utf8DecodeAux l.length l

theorem utf8EncodeChar_lt_256 (c : Nat) (h : c < 1114112) :
    ∀ b ∈ utf8EncodeChar c, b < 256 := by
  intro b hb
  unfold utf8EncodeChar at hb
  split at hb
  · simp at hb; omega
  · split at hb
    · simp at hb; rcases hb with h' | h' <;> omega
    · split at hb
      · simp at hb; rcases hb with h' | h' | h' <;> omega
      · simp at hb; rcases hb with h' | h' | h' | h' <;> omega

theorem utf8Encode_lt_256 (cs : List Nat) (h : ∀ c ∈ cs, c < 1114112) :
    ∀ b ∈ utf8Encode cs, b < 256 := by
  intro b hb
  simp only [utf8Encode, List.mem_flatMap] at hb
  obtain ⟨c, hc, hbc⟩ := hb
  exact utf8EncodeChar_lt_256 c (h c hc) b hbc

theorem utf8EncodeChar_length_pos (c : Nat) : 0 < (utf8EncodeChar c).length := by
  unfold utf8EncodeChar
  split
  · simp
  · split
    · simp
    · split <;> simp

theorem utf8DecodeAux_encode :
    ∀ (cs : List Nat) (fuel : Nat), (∀ c ∈ cs, ValidScalar c) →
      (utf8Encode cs).length ≤ fuel →
      utf8DecodeAux fuel (utf8Encode cs) = some cs := by
  intro cs
  induction cs with
  | nil =>
      intro fuel _ _
      cases fuel <;> simp [utf8Encode, utf8DecodeAux]
  | cons c rest ih =>
      intro fuel h hlen
      obtain ⟨hlt, hsur⟩ : ValidScalar c := h c (by simp)
      have henc : utf8Encode (c :: rest) = utf8EncodeChar c ++ utf8Encode rest := by
        simp [utf8Encode]
      have hcl := utf8EncodeChar_length_pos c
      have hlen' : (utf8Encode (c :: rest)).length =
          (utf8EncodeChar c).length + (utf8Encode rest).length := by
        simp [henc]
      obtain ⟨f, rfl⟩ : ∃ f, fuel = f + 1 := by
        cases fuel with
        | zero => omega
        | succ n => exact ⟨n, rfl⟩
      have hrest : (utf8Encode rest).length ≤ f := by omega
      have ih' := ih f (fun x hx => h x (by simp [hx])) hrest
      rw [henc]
      by_cases h1 : c < 128
      · simp only [utf8EncodeChar, if_pos h1, List.cons_append,
          List.nil_append, utf8DecodeAux, if_pos h1, ih']
        rfl
      · by_cases h2 : c < 2048
        · have e1 : ¬(192 + c / 64 < 128) := by omega
          have e2 : ¬(192 + c / 64 < 192) := by omega
          have e3 : 192 + c / 64 < 224 := by omega
          simp only [utf8EncodeChar, if_neg h1, if_pos h2, List.cons_append,
            List.nil_append, utf8DecodeAux, if_neg e1, if_neg e2, if_pos e3]
          rw [if_pos (by omega : 128 ≤ 128 + c % 64 ∧ 128 + c % 64 < 192)]
          have hcv : (192 + c / 64 - 192) * 64 + (128 + c % 64 - 128) = c := by
            omega
          simp only [hcv]
          rw [if_neg (by omega : ¬c < 128)]
          simp [ih']
        · by_cases h3 : c < 65536
          · have e1 : ¬(224 + c / 4096 < 128) := by omega
            have e2 : ¬(224 + c / 4096 < 192) := by omega
            have e3 : ¬(224 + c / 4096 < 224) := by omega
            have e4 : 224 + c / 4096 < 240 := by omega
            simp only [utf8EncodeChar, if_neg h1, if_neg h2, if_pos h3,
              List.cons_append, List.nil_append, utf8DecodeAux,
              if_neg e1, if_neg e2, if_neg e3, if_pos e4]
            rw [if_pos (by constructor <;> constructor <;> omega :
              (128 ≤ 128 + c / 64 % 64 ∧ 128 + c / 64 % 64 < 192) ∧
              (128 ≤ 128 + c % 64 ∧ 128 + c % 64 < 192))]
            have hcv : (224 + c / 4096 - 224) * 4096 +
                (128 + c / 64 % 64 - 128) * 64 + (128 + c % 64 - 128) = c := by
              omega
            simp only [hcv]
            rw [if_neg (by omega : ¬(c < 2048 ∨ (55296 ≤ c ∧ c < 57344)))]
            simp [ih']
          · have e1 : ¬(240 + c / 262144 < 128) := by omega
            have e2 : ¬(240 + c / 262144 < 192) := by omega
            have e3 : ¬(240 + c / 262144 < 224) := by omega
            have e4 : ¬(240 + c / 262144 < 240) := by omega
            have e5 : 240 + c / 262144 < 248 := by omega
            simp only [utf8EncodeChar, if_neg h1, if_neg h2, if_neg h3,
              List.cons_append, List.nil_append, utf8DecodeAux,
              if_neg e1, if_neg e2, if_neg e3, if_neg e4, if_pos e5]
            rw [if_pos (by refine ⟨⟨?_, ?_⟩, ⟨?_, ?_⟩, ?_, ?_⟩ <;> omega :
              (128 ≤ 128 + c / 4096 % 64 ∧ 128 + c / 4096 % 64 < 192) ∧
              (128 ≤ 128 + c / 64 % 64 ∧ 128 + c / 64 % 64 < 192) ∧
              (128 ≤ 128 + c % 64 ∧ 128 + c % 64 < 192))]
            have hcv : (240 + c / 262144 - 240) * 262144 +
                (128 + c / 4096 % 64 - 128) * 4096 +
                (128 + c / 64 % 64 - 128) * 64 + (128 + c % 64 - 128) = c := by
              omega
            simp only [hcv]
            rw [if_neg (by omega : ¬(c < 65536 ∨ 1114112 ≤ c))]
            simp [ih']

theorem utf8Decode_encode (cs : List Nat) (h : ∀ c ∈ cs, ValidScalar c) :
    utf8Decode (utf8Encode cs) = some cs :=
  utf8DecodeAux_encode cs (utf8Encode cs).length h le_rfl

/-! ### ChaCha20-Poly1305 (RFC 8439), the AEAD used through noble-ciphers -/

/-- 32-bit left rotation on a word below `2^32`. -/
def rotl32 (x n : Nat) : Nat :=
  (x * 2 ^ n + x / 2 ^ (32 - n)) % 4294967296

/-- One ChaCha quarter round on state positions `i0 i1 i2 i3`. -/
def qround (st : List Nat) (i0 i1 i2 i3 : Nat) : List Nat :=
  let a0 := st.getD i0 0
  let b0 := st.getD i1 0
  let c0 := st.getD i2 0
  let d0 := st.getD i3 0
  let a1 := (a0 + b0) % 4294967296
  let d1 := rotl32 (d0 ^^^ a1) 16
  let c1 := (c0 + d1) % 4294967296
  let b1 := rotl32 (b0 ^^^ c1) 12
  let a2 := (a1 + b1) % 4294967296
  let d2 := rotl32 (d1 ^^^ a2) 8
  let c2 := (c1 + d2) % 4294967296
  let b2 := rotl32 (b1 ^^^ c2) 7
  (((st.set i0 a2).set i1 b2).set i2 c2).set i3 d2

/-- One ChaCha double round: four column rounds then four diagonal rounds. -/
def doubleRound (st : List Nat) : List Nat :=
  let s1 := qround st 0 4 8 12
  let s2 := qround s1 1 5 9 13
  let s3 := qround s2 2 6 10 14
  let s4 := qround s3 3 7 11 15
  let s5 := qround s4 0 5 10 15
  let s6 := qround s5 1 6 11 12
  let s7 := qround s6 2 7 8 13
  qround s7 3 4 9 14

/-- Little-endian 32-bit word number `i` of a byte list. -/
def leWord (bs : List Nat) (i : Nat) : Nat :=
  bs.getD (4 * i) 0 + bs.getD (4 * i + 1) 0 * 256 +
  bs.getD (4 * i + 2) 0 * 65536 + bs.getD (4 * i + 3) 0 * 16777216

/-- The 16 output words of the ChaCha20 block function. -/
def chachaBlockWords (key nonce : List Nat) (counter : Nat) : List Nat :=
  let init : List Nat :=
    [1634760805, 857760878, 2036477234, 1797285236] ++
    (List.range 8).map (leWord key) ++
    [counter % 4294967296] ++
    (List.range 3).map (leWord nonce)
  let mixed := (List.range 10).foldl (fun s _ => doubleRound s) init
  (List.range 16).map (fun i => (mixed.getD i 0 + init.getD i 0) % 4294967296)

/-- `count` little-endian bytes of `n`. -/
def natToLE : Nat → Nat → List Nat
  | 0, _ => []
  | k + 1, n => n % 256 :: natToLE k (n / 256)

/-- The 64 serialized bytes (little-endian words) of one ChaCha20 block. -/
def chachaBlockBytes (key nonce : List Nat) (counter : Nat) : List Nat :=
  (chachaBlockWords key nonce counter).flatMap (natToLE 4)

/-- `nblocks` consecutive serialized blocks starting at `counter`. -/
def chachaStreamBlocks (key nonce : List Nat) : Nat → Nat → List Nat
  | _, 0 => []
  | counter, nblocks + 1 =>
      chachaBlockBytes key nonce counter ++
      chachaStreamBlocks key nonce (counter + 1) nblocks

/-- The first `len` bytes of the ChaCha20 keystream used for encryption
(block counter starts at 1). -/
def chachaKeyStream (key nonce : List Nat) (len : Nat) : List Nat :=
  (chachaStreamBlocks key nonce 1 ((len + 63) / 64)).take len

/-- The one-time Poly1305 key: the first 32 bytes of block 0. -/
def polyOneTimeKey (key nonce : List Nat) : List Nat :=
  (chachaBlockBytes key nonce 0).take 32

/-- Little-endian number of a byte list. -/
def leNum (bs : List Nat) : Nat := bs.foldr (fun b acc => b + 256 * acc) 0

/-- Poly1305 accumulation over 16-byte blocks, fuel-bounded on the message
length so that it is structurally recursive. -/
def poly1305Blocks : Nat → Nat → Nat → List Nat → Nat
  | _, _, acc, [] => acc
  | 0, _, acc, _ :: _ => acc
  | fuel + 1, r, acc, msg =>
      let blk := msg.take 16
      let acc' := ((acc + leNum blk + 2 ^ (8 * blk.length)) * r) %
        1361129467683753853853498429727072845819
      poly1305Blocks fuel r acc' (msg.drop 16)

/-- The 16-byte Poly1305 tag of `msg` under the 32-byte one-time key. -/
def poly1305Tag (msg keyBytes : List Nat) : List Nat :=
  let r := Nat.land (leNum (keyBytes.take 16)) 0x0ffffffc0ffffffc0ffffffc0fffffff
  let s := leNum ((keyBytes.drop 16).take 16)
  let acc := poly1305Blocks msg.length r 0 msg
  natToLE 16 ((acc + s) % 340282366920938463463374607431768211456)

/-- Pad a byte list with zeros to a multiple of 16 bytes. -/
def pad16 (l : List Nat) : List Nat :=
  l ++ List.replicate ((16 - l.length % 16) % 16) 0

/-- The Poly1305 input of the AEAD with empty associated data. -/
def macData (ct : List Nat) : List Nat :=
  pad16 ct ++ natToLE 8 0 ++ natToLE 8 ct.length

/-- The ciphertext part of `chacha20poly1305(key, nonce).encrypt(data)`:
plaintext xor keystream. -/
def aeadCiphertext (key nonce data : List Nat) : List Nat :=
  List.zipWith Nat.xor data (chachaKeyStream key nonce data.length)

/-- `chacha20poly1305(key, nonce).encrypt(data)`: ciphertext followed by the
16-byte tag. -/
def aeadEncrypt (key nonce data : List Nat) : List Nat :=
  aeadCiphertext key nonce data ++
  poly1305Tag (macData (aeadCiphertext key nonce data)) (polyOneTimeKey key nonce)

/-- `chacha20poly1305(key, nonce).decrypt(enc)`: verify the tag, then
decrypt; `none` models the authentication-failure exception. -/
def aeadDecrypt (key nonce enc : List Nat) : Option (List Nat) :=
  if enc.length < 16 then none
  else if enc.drop (enc.length - 16) =
      poly1305Tag (macData (enc.take (enc.length - 16))) (polyOneTimeKey key nonce) then
    some (List.zipWith Nat.xor (enc.take (enc.length - 16))
      (chachaKeyStream key nonce (enc.take (enc.length - 16)).length))
  else none

theorem natToLE_length (k n : Nat) : (natToLE k n).length = k := by
  induction k generalizing n with
  | zero => rfl
  | succ k ih => simp [natToLE, ih]

theorem natToLE_lt_256 (k n : Nat) : ∀ b ∈ natToLE k n, b < 256 := by
  induction k generalizing n with
  | zero => simp [natToLE]
  | succ k ih =>
      intro b hb
      simp only [natToLE, List.mem_cons] at hb
      rcases hb with h | h
      · omega
      · exact ih _ b h

theorem chachaBlockWords_length (key nonce : List Nat) (counter : Nat) :
    (chachaBlockWords key nonce counter).length = 16 := by
  simp [chachaBlockWords]

theorem flatMap_natToLE4_length :
    ∀ ws : List Nat, (ws.flatMap (natToLE 4)).length = 4 * ws.length := by
  intro ws
  induction ws with
  | nil => simp
  | cons w ws ih =>
      simp only [List.flatMap_cons, List.length_append, natToLE_length, ih,
        List.length_cons]
      omega

theorem chachaBlockBytes_length (key nonce : List Nat) (counter : Nat) :
    (chachaBlockBytes key nonce counter).length = 64 := by
  rw [chachaBlockBytes, flatMap_natToLE4_length, chachaBlockWords_length]

theorem chachaStreamBlocks_length (key nonce : List Nat) :
    ∀ (n c : Nat), (chachaStreamBlocks key nonce c n).length = 64 * n := by
  intro n
  induction n with
  | zero => intro c; rfl
  | succ n ih =>
      intro c
      simp only [chachaStreamBlocks, List.length_append,
        chachaBlockBytes_length, ih]
      omega

theorem chachaKeyStream_length (key nonce : List Nat) (len : Nat) :
    (chachaKeyStream key nonce len).length = len := by
  rw [chachaKeyStream, List.length_take, chachaStreamBlocks_length]
  omega

theorem aeadCiphertext_length (key nonce data : List Nat) :
    (aeadCiphertext key nonce data).length = data.length := by
  simp [aeadCiphertext, chachaKeyStream_length]

theorem zipWith_xor_cancel :
    ∀ (d k : List Nat), k.length = d.length →
      List.zipWith Nat.xor (List.zipWith Nat.xor d k) k = d := by
  intro d
  induction d with
  | nil => intro k _; simp
  | cons x xs ih =>
      intro k hk
      cases k with
      | nil => simp at hk
      | cons y ys =>
          simp only [List.zipWith_cons_cons, List.cons.injEq]
          refine ⟨Nat.xor_cancel_right y x, ih ys (by simpa using hk)⟩

theorem poly1305Tag_length (msg keyBytes : List Nat) :
    (poly1305Tag msg keyBytes).length = 16 := by
  simp [poly1305Tag, natToLE_length]

theorem aeadDecrypt_encrypt (key nonce data : List Nat) :
    aeadDecrypt key nonce (aeadEncrypt key nonce data) = some data := by
  have hct := aeadCiphertext_length key nonce data
  have htag := poly1305Tag_length
    (macData (aeadCiphertext key nonce data)) (polyOneTimeKey key nonce)
  have hlen : (aeadEncrypt key nonce data).length = data.length + 16 := by
    simp [aeadEncrypt, hct, htag]
  have hsub : (aeadEncrypt key nonce data).length - 16 =
      (aeadCiphertext key nonce data).length := by omega
  have htake : (aeadEncrypt key nonce data).take
      ((aeadEncrypt key nonce data).length - 16) = aeadCiphertext key nonce data := by
    rw [hsub]
    exact List.take_left _ _
  have hdrop : (aeadEncrypt key nonce data).drop
      ((aeadEncrypt key nonce data).length - 16) =
      poly1305Tag (macData (aeadCiphertext key nonce data)) (polyOneTimeKey key nonce) := by
    rw [hsub]
    exact List.drop_left _ _
  unfold aeadDecrypt
  rw [if_neg (by omega), htake, hdrop, if_pos rfl]
  rw [hct]
  exact congrArg some
    (zipWith_xor_cancel data _ (chachaKeyStream_length key nonce data.length))

theorem zipWith_xor_lt_256 :
    ∀ (a b : List Nat), (∀ x ∈ a, x < 256) → (∀ x ∈ b, x < 256) →
      ∀ x ∈ List.zipWith Nat.xor a b, x < 256 := by
  intro a
  induction a with
  | nil => intro b _ _ x hx; simp at hx
  | cons y ys ih =>
      intro b ha hb x hx
      cases b with
      | nil => simp at hx
      | cons z zs =>
          simp only [List.zipWith_cons_cons, List.mem_cons] at hx
          rcases hx with h | h
          · have h1 : y < 2 ^ 8 := by
              have := ha y (by simp); omega
            have h2 : z < 2 ^ 8 := by
              have := hb z (by simp); omega
            have h3 : y ^^^ z < 2 ^ 8 := Nat.xor_lt_two_pow h1 h2
            have h4 : (2 : Nat) ^ 8 = 256 := by norm_num
            rw [h4] at h3
            subst h
            exact h3
          · exact ih zs (fun u hu => ha u (by simp [hu]))
              (fun u hu => hb u (by simp [hu])) x h

theorem chachaBlockBytes_lt_256 (key nonce : List Nat) (counter : Nat) :
    ∀ b ∈ chachaBlockBytes key nonce counter, b < 256 := by
  intro b hb
  simp only [chachaBlockBytes, List.mem_flatMap] at hb
  obtain ⟨w, _, hbw⟩ := hb
  exact natToLE_lt_256 4 w b hbw

theorem chachaStreamBlocks_lt_256 (key nonce : List Nat) :
    ∀ (n c : Nat), ∀ b ∈ chachaStreamBlocks key nonce c n, b < 256 := by
  intro n
  induction n with
  | zero =>
      intro c b hb
      simp [chachaStreamBlocks] at hb
  | succ n ih =>
      intro c b hb
      simp only [chachaStreamBlocks, List.mem_append] at hb
      rcases hb with h | h
      · exact chachaBlockBytes_lt_256 key nonce c b h
      · exact ih (c + 1) b h

theorem chachaKeyStream_lt_256 (key nonce : List Nat) (len : Nat) :
    ∀ b ∈ chachaKeyStream key nonce len, b < 256 := by
  intro b hb
  rw [chachaKeyStream] at hb
  exact chachaStreamBlocks_lt_256 key nonce _ _ b (List.mem_of_mem_take hb)

theorem aeadEncrypt_lt_256 (key nonce data : List Nat)
    (hd : ∀ b ∈ data, b < 256) :
    ∀ b ∈ aeadEncrypt key nonce data, b < 256 := by
  intro b hb
  simp only [aeadEncrypt, List.mem_append] at hb
  rcases hb with h | h
  · exact zipWith_xor_lt_256 data _ hd
      (chachaKeyStream_lt_256 key nonce data.length) b h
  · exact natToLE_lt_256 16 _ b h

/-! ### The `ChaCha20Poly1305Service` of `crypto.ts` -/

/-- The `EncryptionResult` returned by `ChaCha20Poly1305Service.encrypt`:
all three fields are base64 strings. -/
structure EncryptionResult where
  encryptedData : List Nat
  nonce : List Nat
  key : List Nat
deriving DecidableEq

/-- The `DecryptionRequest` argument of `ChaCha20Poly1305Service.decrypt`. -/
structure DecryptionRequest where
  encryptedData : List Nat
  nonce : List Nat
  key : List Nat
deriving DecidableEq

/-- `ChaCha20Poly1305Service.encrypt`: the random key (`generateKey`) and
nonce (`generateNonce`) are passed in explicitly.  The source base64-encodes
the fresh key, decodes it back with `atob` (modelled by `b64Decode`; `none`
is the thrown `CryptoError`), UTF-8-encodes the plaintext, runs the AEAD and
base64-encodes ciphertext and nonce. -/
def svcEncrypt (keyBytes nonceBytes : List Nat) (data : List Nat) :
    Option EncryptionResult :=
  match b64Decode (b64Encode keyBytes) with
  | none => none
  | some kb =>
      some { encryptedData := b64Encode (aeadEncrypt kb nonceBytes (utf8Encode data)),
             nonce := b64Encode nonceBytes,
             key := b64Encode keyBytes }

/-- `ChaCha20Poly1305Service.decrypt`: base64-decode key, nonce and
ciphertext, run the AEAD open and UTF-8-decode; `none` is the thrown
`CryptoError('DECRYPTION_FAILED')`. -/
def svcDecrypt (req : DecryptionRequest) : Option (List Nat) :=
  match b64Decode req.key, b64Decode req.nonce, b64Decode req.encryptedData with
  | some kb, some nb, some eb =>
      match aeadDecrypt kb nb eb with
      | some pt => utf8Decode pt
      | none => none
  | _, _, _ => none

/-- **C1**: for every plaintext string `P` (UTF-8, 0 to 10 KiB), decrypting
the result of `encrypt(P)` with the key and nonce that `encrypt` returned
yields `P` again: `decrypt({encryptedData, nonce, key}) == P` for the triple
produced by `encrypt(P)`. -/
theorem c1_encrypt_decrypt_roundtrip
    (keyBytes nonceBytes data : List Nat)
    (_hkl : keyBytes.length = 32) (hkb : ∀ b ∈ keyBytes, b < 256)
    (_hnl : nonceBytes.length = 12) (hnb : ∀ b ∈ nonceBytes, b < 256)
    (hdata : ∀ c ∈ data, ValidScalar c)
    (_hsize : (utf8Encode data).length ≤ 10240) :
    ∃ res, svcEncrypt keyBytes nonceBytes data = some res ∧
      svcDecrypt ⟨res.encryptedData, res.nonce, res.key⟩ = some data := by
  have hkdec := b64Encode_decode keyBytes hkb
  have hdatabytes : ∀ b ∈ utf8Encode data, b < 256 :=
    utf8Encode_lt_256 data (fun c hc => (hdata c hc).1)
  have hencb : ∀ b ∈ aeadEncrypt keyBytes nonceBytes (utf8Encode data), b < 256 :=
    aeadEncrypt_lt_256 keyBytes nonceBytes (utf8Encode data) hdatabytes
  refine ⟨⟨b64Encode (aeadEncrypt keyBytes nonceBytes (utf8Encode data)),
    b64Encode nonceBytes, b64Encode keyBytes⟩, ?_, ?_⟩
  · simp only [svcEncrypt, hkdec]
  · simp only [svcDecrypt, hkdec, b64Encode_decode nonceBytes hnb,
      b64Encode_decode _ hencb, aeadDecrypt_encrypt, utf8Decode_encode data hdata]

/-- Witness for C1 at a concrete key, nonce and two-character plaintext. -/
theorem c1_encrypt_decrypt_roundtrip_witness :
    ∃ res, svcEncrypt (List.range 32) (List.range 12) [104, 105] = some res ∧
      svcDecrypt ⟨res.encryptedData, res.nonce, res.key⟩ = some [104, 105] :=
  c1_encrypt_decrypt_roundtrip (List.range 32) (List.range 12) [104, 105]
    (by decide) (by decide) (by decide) (by decide) (by decide) (by decide)

/-! ### Decimal rendering (`Number.prototype.toString`) -/

/-- Decimal digit characters of `n`, most significant first; fuel-bounded
(`fuel ≥ n` suffices) so that it is structurally recursive. -/
def decDigitsAux : Nat → Nat → List Nat
  | 0, n => [48 + n % 10]
  | fuel + 1, n =>
      if n < 10 then [48 + n]
      else decDigitsAux fuel (n / 10) ++ [48 + n % 10]

/-- `n.toString()` for a non-negative integer: decimal character codes. -/
def decDigits (n : Nat) : List Nat := decDigitsAux n n

theorem decDigitsAux_congr :
    ∀ (f1 f2 n : Nat), n ≤ f1 → n ≤ f2 → decDigitsAux f1 n = decDigitsAux f2 n := by
  intro f1
  induction f1 with
  | zero =>
      intro f2 n h1 _
      have : n = 0 := by omega
      subst this
      cases f2 <;> simp [decDigitsAux]
  | succ f ih =>
      intro f2 n h1 h2
      by_cases hn : n < 10
      · cases f2 with
        | zero =>
            have : n = 0 := by omega
            subst this
            simp [decDigitsAux]
        | succ f2' => simp [decDigitsAux, hn]
      · obtain ⟨f2', rfl⟩ : ∃ m, f2 = m + 1 := by
          cases f2 with
          | zero => omega
          | succ m => exact ⟨m, rfl⟩
        simp only [decDigitsAux, if_neg hn]
        rw [ih f2' (n / 10) (by omega) (by omega)]

theorem decDigits_step (n : Nat) (h : 10 ≤ n) :
    decDigits n = decDigits (n / 10) ++ [48 + n % 10] := by
  obtain ⟨m, rfl⟩ : ∃ m, n = m + 1 := by
    cases n with
    | zero => omega
    | succ m => exact ⟨m, rfl⟩
  show decDigitsAux (m + 1) (m + 1) = _
  rw [decDigitsAux, if_neg (by omega)]
  rw [decDigitsAux_congr m ((m + 1) / 10) ((m + 1) / 10) (by omega) (by omega)]
  rfl

theorem decDigits_small (n : Nat) (h : n < 10) : decDigits n = [48 + n] := by
  cases n with
  | zero => rfl
  | succ m =>
      show decDigitsAux (m + 1) (m + 1) = _
      rw [decDigitsAux, if_pos h]

theorem decDigits_length_le :
    ∀ (k n : Nat), n < 10 ^ k → 1 ≤ k → (decDigits n).length ≤ k := by
  intro k
  induction k with
  | zero => intro n _ h; omega
  | succ k ih =>
      intro n h _
      by_cases hn : n < 10
      · rw [decDigits_small n hn]; simp
      · rw [decDigits_step n (by omega)]
        have hp : 10 ^ (k + 1) = 10 ^ k * 10 := by ring
        have hdiv : n / 10 < 10 ^ k := by
          rw [hp] at h
          omega
        have hk1 : 1 ≤ k := by
          by_contra hc
          have : k = 0 := by omega
          subst this
          simp at h
          omega
        have := ih (n / 10) hdiv hk1
        simp only [List.length_append, List.length_cons, List.length_nil]
        omega

/-- `s.slice(0, -k)` on a JS string: drop the last `k` characters. -/
def jsSliceDropEnd (k : Nat) (l : List Nat) : List Nat :=
  l.take (l.length - k)

theorem jsSliceDropEnd_decDigits :
    ∀ (k n : Nat), 10 ^ k ≤ n →
      jsSliceDropEnd k (decDigits n) = decDigits (n / 10 ^ k) := by
  intro k
  induction k with
  | zero =>
      intro n _
      simp [jsSliceDropEnd]
  | succ k ih =>
      intro n h
      have h10 : 10 ≤ n := by
        have : (10 : Nat) ≤ 10 ^ (k + 1) := by
          calc (10 : Nat) = 10 ^ 1 := by ring
          _ ≤ 10 ^ (k + 1) := Nat.pow_le_pow_right (by omega) (by omega)
        omega
      rw [decDigits_step n h10]
      have hdiv : 10 ^ k ≤ n / 10 := by
        have hp : 10 ^ (k + 1) = 10 ^ k * 10 := by ring
        rw [hp] at h
        omega
      have ihe := ih (n / 10) hdiv
      simp only [jsSliceDropEnd, List.length_append, List.length_cons,
        List.length_nil] at ihe ⊢
      have harith : (decDigits (n / 10)).length + 1 - (k + 1) =
          (decDigits (n / 10)).length - k := by omega
      rw [harith]
      rw [List.take_append_of_le_length (by omega)]
      rw [ihe]
      rw [Nat.div_div_eq_div_mul, Nat.mul_comm, ← pow_succ]

/-! ### SHA-256, HMAC, HKDF (noble-hashes), for `derivePrivateArticleKey` -/

/-- 32-bit right rotation on a word below `2^32`. -/
def rotr32 (x n : Nat) : Nat :=
  (x / 2 ^ n + x % 2 ^ n * 2 ^ (32 - n)) % 4294967296

/-- The SHA-256 round constants. -/
def sha256K : List Nat :=
  [1116352408, 1899447441, 3049323471, 3921009573,
   961987163, 1508970993, 2453635748, 2870763221,
   3624381080, 310598401, 607225278, 1426881987,
   1925078388, 2162078206, 2614888103, 3248222580,
   3835390401, 4022224774, 264347078, 604807628,
   770255983, 1249150122, 1555081692, 1996064986,
   2554220882, 2821834349, 2952996808, 3210313671,
   3336571891, 3584528711, 113926993, 338241895,
   666307205, 773529912, 1294757372, 1396182291,
   1695183700, 1986661051, 2177026350, 2456956037,
   2730485921, 2820302411, 3259730800, 3345764771,
   3516065817, 3600352804, 4094571909, 275423344,
   430227734, 506948616, 659060556, 883997877,
   958139571, 1322822218, 1537002063, 1747873779,
   1955562222, 2024104815, 2227730452, 2361852424,
   2428436474, 2756734187, 3204031479, 3329325298]

/-- The SHA-256 initial hash words. -/
def sha256H0 : List Nat :=
  [1779033703, 3144134277, 1013904242, 2773480762,
   1359893119, 2600822924, 528734635, 1541459225]

/-- Big-endian 32-bit word number `i` of a byte list. -/
def beWord (bs : List Nat) (i : Nat) : Nat :=
  bs.getD (4 * i) 0 * 16777216 + bs.getD (4 * i + 1) 0 * 65536 +
  bs.getD (4 * i + 2) 0 * 256 + bs.getD (4 * i + 3) 0

/-- Extend the 16 chunk words to the 64-word message schedule. -/
def sha256Schedule (ws : List Nat) : List Nat :=
  (List.range 48).foldl
    (fun w _ =>
      let i := w.length
      let x15 := w.getD (i - 15) 0
      let x2 := w.getD (i - 2) 0
      let s0 := rotr32 x15 7 ^^^ rotr32 x15 18 ^^^ x15 / 8
      let s1 := rotr32 x2 17 ^^^ rotr32 x2 19 ^^^ x2 / 1024
      w ++ [(w.getD (i - 16) 0 + s0 + w.getD (i - 7) 0 + s1) % 4294967296])
    ws

/-- One SHA-256 compression of an expanded 64-word schedule into the eight
hash words. -/
def sha256Compress (hs w : List Nat) : List Nat :=
  let fin := (List.range 64).foldl
    (fun st i =>
      let a := st.getD 0 0
      let b := st.getD 1 0
      let c := st.getD 2 0
      let d := st.getD 3 0
      let e := st.getD 4 0
      let f := st.getD 5 0
      let g := st.getD 6 0
      let h := st.getD 7 0
      let s1 := rotr32 e 6 ^^^ rotr32 e 11 ^^^ rotr32 e 25
      let ch := (e &&& f) ^^^ ((e ^^^ 4294967295) &&& g)
      let t1 := (h + s1 + ch + sha256K.getD i 0 + w.getD i 0) % 4294967296
      let s0 := rotr32 a 2 ^^^ rotr32 a 13 ^^^ rotr32 a 22
      let mj := (a &&& b) ^^^ (a &&& c) ^^^ (b &&& c)
      let t2 := (s0 + mj) % 4294967296
      [(t1 + t2) % 4294967296, a, b, c, (d + t1) % 4294967296, e, f, g])
    hs
  (List.range 8).map (fun i => (hs.getD i 0 + fin.getD i 0) % 4294967296)

/-- Process the padded message in 64-byte chunks (fuel-bounded on the byte
length). -/
def sha256Process : Nat → List Nat → List Nat → List Nat
  | _, hs, [] => hs
  | 0, hs, _ :: _ => hs
  | fuel + 1, hs, msg =>
      let chunk := msg.take 64
      let ws := sha256Schedule ((List.range 16).map (beWord chunk))
      sha256Process fuel (sha256Compress hs ws) (msg.drop 64)

/-- Big-endian 8-byte encoding of `n`. -/
def beBytes8 (n : Nat) : List Nat :=
  (List.range 8).map (fun i => n / 256 ^ (7 - i) % 256)

/-- SHA-256 of a byte list. -/
def sha256 (msg : List Nat) : List Nat :=
  let padded := msg ++ 128 ::
    (List.replicate ((64 - (msg.length + 9) % 64) % 64) 0 ++ beBytes8 (8 * msg.length))
  let hs := sha256Process padded.length sha256H0 padded
  hs.flatMap (fun w => [w / 16777216 % 256, w / 65536 % 256, w / 256 % 256, w % 256])

/-- HMAC-SHA256. -/
def hmacSha256 (key msg : List Nat) : List Nat :=
  let k0 := if key.length > 64 then sha256 key else key
  let kp := k0 ++ List.replicate (64 - k0.length) 0
  sha256 ((kp.map (fun b => b ^^^ 92)) ++
    sha256 ((kp.map (fun b => b ^^^ 54)) ++ msg))

/-- `hkdf(sha256, ikm, salt, info, 32)` of noble-hashes: extract then a
single expand block. -/
def hkdfSha256_32 (ikm salt info : List Nat) : List Nat :=
  (hmacSha256 (hmacSha256 salt ikm) (info ++ [1])).take 32

set_option maxRecDepth 100000 in
/-- The standard SHA-256 test vector for "abc", validating the embedding. -/
theorem sha256_abc_vector :
    sha256 [97, 98, 99] =
      [0xba, 0x78, 0x16, 0xbf, 0x8f, 0x01, 0xcf, 0xea,
       0x41, 0x41, 0x40, 0xde, 0x5d, 0xae, 0x22, 0x23,
       0xb0, 0x03, 0x61, 0xa3, 0x96, 0x17, 0x7a, 0x9c,
       0xb4, 0x10, 0xff, 0x61, 0xf2, 0x00, 0x15, 0xad] := by decide

theorem sha256Compress_length (hs w : List Nat) :
    (sha256Compress hs w).length = 8 := by
  simp [sha256Compress]

theorem sha256Process_length :
    ∀ (fuel : Nat) (hs msg : List Nat), hs.length = 8 →
      (sha256Process fuel hs msg).length = 8 := by
  intro fuel
  induction fuel with
  | zero => intro hs msg h; cases msg <;> simpa [sha256Process] using h
  | succ f ih =>
      intro hs msg h
      cases msg with
      | nil => simpa [sha256Process] using h
      | cons b t =>
          show (sha256Process f (sha256Compress hs _) _).length = 8
          exact ih _ _ (sha256Compress_length hs _)

theorem flatMap_word_bytes_length :
    ∀ (ws : List Nat),
      (ws.flatMap (fun w => [w / 16777216 % 256, w / 65536 % 256,
        w / 256 % 256, w % 256])).length = 4 * ws.length := by
  intro ws
  induction ws with
  | nil => simp
  | cons w t ih => simp [ih]; omega

theorem sha256_length (msg : List Nat) : (sha256 msg).length = 32 := by
  unfold sha256
  rw [flatMap_word_bytes_length]
  rw [sha256Process_length _ _ _ (by simp [sha256H0])]

theorem sha256_lt_256 (msg : List Nat) : ∀ b ∈ sha256 msg, b < 256 := by
  intro b hb
  unfold sha256 at hb
  simp only [List.mem_flatMap] at hb
  obtain ⟨w, _, hw⟩ := hb
  simp only [List.mem_cons, List.not_mem_nil, or_false] at hw
  rcases hw with rfl | rfl | rfl | rfl <;> omega

theorem hmacSha256_length (key msg : List Nat) :
    (hmacSha256 key msg).length = 32 := by
  unfold hmacSha256
  exact sha256_length _

theorem hkdfSha256_32_length (ikm salt info : List Nat) :
    (hkdfSha256_32 ikm salt info).length = 32 := by
  unfold hkdfSha256_32
  rw [List.length_take, hmacSha256_length]
  exact Nat.min_self 32

theorem hkdfSha256_32_lt_256 (ikm salt info : List Nat) :
    ∀ b ∈ hkdfSha256_32 ikm salt info, b < 256 := by
  intro b hb
  unfold hkdfSha256_32 at hb
  have := List.mem_of_mem_take hb
  exact sha256_lt_256 _ b this

/-! ### `KeyDerivationService.derivePrivateArticleKey` of `keyDerivation.ts` -/

/-- One hexadecimal digit (`parseInt(c, 16)` on one character). -/
def hexDigitVal (c : Nat) : Option Nat :=
  if 48 ≤ c ∧ c ≤ 57 then some (c - 48)
  else if 97 ≤ c ∧ c ≤ 102 then some (c - 87)
  else if 65 ≤ c ∧ c ≤ 70 then some (c - 55)
  else none

/-- `parseInt` of a two-character chunk in base 16, coerced by the
`Uint8Array` constructor (`NaN` becomes 0, a one-digit parse keeps its
value). -/
def parseHexPairByte (c1 c2 : Nat) : Nat :=
  match hexDigitVal c1, hexDigitVal c2 with
  | some v1, some v2 => v1 * 16 + v2
  | some v1, none => v1
  | none, _ => 0

/-- `signature.match(/.{1,2}/g)?.map(b => parseInt(b, 16))` into a
`Uint8Array`. -/
def hexToBytes : List Nat → List Nat
  | [] => []
  | [c] =>
      match hexDigitVal c with
      | some v => [v]
      | none => [0]
  | c1 :: c2 :: rest => parseHexPairByte c1 c2 :: hexToBytes rest

theorem hexDigitVal_lt_16 (c v : Nat) (h : hexDigitVal c = some v) : v < 16 := by
  unfold hexDigitVal at h
  split at h
  · simp at h; omega
  · split at h
    · simp at h; omega
    · split at h
      · simp at h; omega
      · simp at h

theorem parseHexPairByte_lt_256 (c1 c2 : Nat) : parseHexPairByte c1 c2 < 256 := by
  rcases e1 : hexDigitVal c1 with _ | v1 <;>
    rcases e2 : hexDigitVal c2 with _ | v2 <;>
      simp only [parseHexPairByte, e1, e2]
  · omega
  · omega
  · have := hexDigitVal_lt_16 c1 v1 e1
    omega
  · have hv1 := hexDigitVal_lt_16 c1 v1 e1
    have hv2 := hexDigitVal_lt_16 c2 v2 e2
    omega

theorem hexToBytes_lt_256 : ∀ (l : List Nat), ∀ b ∈ hexToBytes l, b < 256 := by
  intro l
  induction l using hexToBytes.induct with
  | case1 => simp [hexToBytes]
  | case2 c v e =>
      intro b hb
      simp only [hexToBytes, e] at hb
      simp at hb
      have := hexDigitVal_lt_16 c v e
      omega
  | case3 c e =>
      intro b hb
      simp only [hexToBytes, e] at hb
      simp at hb
      omega
  | case4 c1 c2 rest ih =>
      intro b hb
      simp only [hexToBytes, List.mem_cons] at hb
      rcases hb with h | h
      · subst h
        exact parseHexPairByte_lt_256 c1 c2
      · exact ih b h

/-- The message signed by the wallet in `derivePrivateArticleKey`
(`keyDerivation.ts` line 52): the wallet address and
`Date.now().toString().slice(0, -6)` followed by `"000"`.  Built from the
wallet address and the clock only; the article id is not an input. -/
def derivationMessage (walletAddress : List Nat) (now : Nat) : List Nat :=
  strCodes "kaspa-auth-master-key:" ++ walletAddress ++ strCodes ":" ++
  jsSliceDropEnd 6 (decDigits now) ++ strCodes "000"

/-- The HKDF step of `derivePrivateArticleKey` (lines 57-70): hex signature
to bytes, HKDF-SHA256 with salt `kaspa-dapp-v1` and info
`article:<articleId>`, 32 bytes, base64-encoded. -/
def deriveKeyStep (signature articleId : List Nat) : List Nat :=
  b64Encode (hkdfSha256_32 (hexToBytes signature)
    (utf8Encode (strCodes "kaspa-dapp-v1"))
    (utf8Encode (strCodes "article:" ++ articleId)))

/-- The observable trace of one `derivePrivateArticleKey` call. -/
structure KeyDerivationTrace where
  signedMessage : List Nat
  hkdfInfo : List Nat
  key : List Nat
deriving DecidableEq

/-- `derivePrivateArticleKey`, with the wallet's `signMessage` supplied as
an oracle and `Date.now()` as a parameter. -/
def derivePrivateArticleKey (sign : List Nat → List Nat)
    (walletAddress : List Nat) (now : Nat) (articleId : List Nat) :
    KeyDerivationTrace :=
  { signedMessage := derivationMessage walletAddress now
    hkdfInfo := utf8Encode (strCodes "article:" ++ articleId)
    key := deriveKeyStep (sign (derivationMessage walletAddress now)) articleId }

theorem derivationMessage_bucket (addr : List Nat) (t1 t2 : Nat)
    (h : t1 / 1000000 = t2 / 1000000) :
    derivationMessage addr t1 = derivationMessage addr t2 := by
  unfold derivationMessage
  have hpow : (10 : Nat) ^ 6 = 1000000 := by norm_num
  have key : jsSliceDropEnd 6 (decDigits t1) = jsSliceDropEnd 6 (decDigits t2) := by
    by_cases hq : 1000000 ≤ t1
    · have hq2 : 1000000 ≤ t2 := by omega
      rw [jsSliceDropEnd_decDigits 6 t1 (by rw [hpow]; exact hq),
          jsSliceDropEnd_decDigits 6 t2 (by rw [hpow]; exact hq2)]
      rw [hpow, h]
    · have hq1 : t1 < 10 ^ 6 := by rw [hpow]; omega
      have hq2 : t2 < 10 ^ 6 := by rw [hpow]; omega
      have l1 := decDigits_length_le 6 t1 hq1 (by omega)
      have l2 := decDigits_length_le 6 t2 hq2 (by omega)
      unfold jsSliceDropEnd
      rw [show (decDigits t1).length - 6 = 0 by omega,
          show (decDigits t2).length - 6 = 0 by omega]
      simp
  rw [key]

/-- **C5 counterexample**: the signed derivation message is NOT a function of
the wallet address and the minute-rounded timestamp: `1699999999999` and
`1700000000000` fall in the same minute yet produce different messages
(the code truncates the decimal string by six digits, a `10^6` ms bucket). -/
theorem c5_minute_rounding_refuted :
    1699999999999 / 60000 = 1700000000000 / 60000 ∧
    derivationMessage (strCodes "kaspa:qq") 1699999999999 ≠
      derivationMessage (strCodes "kaspa:qq") 1700000000000 := by
  constructor
  · decide
  · decide

/-- **C5 (amended)**: `derivePrivateArticleKey` signs a message that is a
deterministic function of the wallet address and the timestamp truncated to
`10^6` ms (`Date.now().toString().slice(0,-6) + "000"`), NOT rounded to the
minute; the article id does not occur in the signed message and enters only
through the HKDF info string `article:<articleId>`. -/
theorem c5_message_shape (sign : List Nat → List Nat)
    (addr : List Nat) (t1 t2 : Nat) (id1 id2 : List Nat)
    (h : t1 / 1000000 = t2 / 1000000) :
    (derivePrivateArticleKey sign addr t1 id1).signedMessage =
      (derivePrivateArticleKey sign addr t2 id2).signedMessage ∧
    (derivePrivateArticleKey sign addr t1 id1).hkdfInfo =
      utf8Encode (strCodes "article:" ++ id1) := by
  constructor
  · exact derivationMessage_bucket addr t1 t2 h
  · rfl

/-- Witness for the amended C5 at two concrete timestamps of the same
`10^6` ms bucket and two different article ids. -/
theorem c5_message_shape_witness :
    (derivePrivateArticleKey (fun m => m) (strCodes "kaspa:qq") 1000000
        (strCodes "a1")).signedMessage =
      (derivePrivateArticleKey (fun m => m) (strCodes "kaspa:qq") 1999999
        (strCodes "b2")).signedMessage ∧
    (derivePrivateArticleKey (fun m => m) (strCodes "kaspa:qq") 1000000
        (strCodes "a1")).hkdfInfo =
      utf8Encode (strCodes "article:" ++ strCodes "a1") :=
  c5_message_shape (fun m => m) (strCodes "kaspa:qq") 1000000 1999999
    (strCodes "a1") (strCodes "b2") (by decide)

set_option maxRecDepth 100000 in
/-- **C6**: the HKDF step of `derivePrivateArticleKey` is a pure function of
the signature hex string and the article id (same inputs give the same key
on every call), always yields a base64 key that decodes to 32 bytes
(256 bits), and two different article ids under the same signature yield
different keys, shown at concrete inputs. -/
theorem c6_hkdf_determinism :
    (∀ sig1 sig2 id1 id2 : List Nat, sig1 = sig2 → id1 = id2 →
      deriveKeyStep sig1 id1 = deriveKeyStep sig2 id2) ∧
    (∀ sig id : List Nat, ∃ kb, b64Decode (deriveKeyStep sig id) = some kb ∧
      kb.length = 32) ∧
    deriveKeyStep (strCodes "ab") (strCodes "1") ≠
      deriveKeyStep (strCodes "ab") (strCodes "2") := by
  refine ⟨?_, ?_, ?_⟩
  · intro sig1 sig2 id1 id2 h1 h2
    rw [h1, h2]
  · intro sig id
    unfold deriveKeyStep
    exact ⟨hkdfSha256_32 (hexToBytes sig) _ _,
      b64Encode_decode _ (hkdfSha256_32_lt_256 _ _ _),
      hkdfSha256_32_length _ _ _⟩
  · decide

/-! ### `ArticleService.validateArticleContent` of `article.ts` -/

/-- The `ContentTooLarge` message: reports the measured size and the
`MAX_CONTENT_SIZE` limit of `10 * 1024` bytes. -/
def contentTooLargeMsg (contentBytes : Nat) : List Nat :=
  strCodes "Article content too large: " ++ decDigits contentBytes ++
  strCodes " bytes (max: " ++ decDigits (10 * 1024) ++ strCodes " bytes)"

/-- `ArticleService.validateArticleContent`: measure the UTF-8 byte length
and throw when it exceeds `MAX_CONTENT_SIZE`. -/
def validateArticleContent (content : List Nat) : Except (List Nat) Unit :=
  if (utf8Encode content).length > 10 * 1024 then
    Except.error (contentTooLargeMsg (utf8Encode content).length)
  else Except.ok ()

theorem utf8Encode_replicate_97 (n : Nat) :
    utf8Encode (List.replicate n 97) = List.replicate n 97 := by
  induction n with
  | zero => rfl
  | succ n ih =>
      rw [List.replicate_succ]
      show utf8EncodeChar 97 ++ utf8Encode (List.replicate n 97) = _
      rw [ih]
      rfl

/-- **C7**: content validation accepts exactly the strings whose UTF-8
encoding is at most 10240 bytes; a rejection carries the `ContentTooLarge`
message with the measured size and the 10240 limit; a 10240-byte body is
accepted and a 10241-byte body is rejected. -/
theorem c7_content_size_ceiling :
    (∀ content : List Nat,
        validateArticleContent content = Except.ok () ↔
          (utf8Encode content).length ≤ 10240) ∧
    (∀ content : List Nat, (utf8Encode content).length > 10240 →
        validateArticleContent content =
          Except.error (contentTooLargeMsg (utf8Encode content).length)) ∧
    validateArticleContent (List.replicate 10240 97) = Except.ok () ∧
    validateArticleContent (List.replicate 10241 97) =
      Except.error (contentTooLargeMsg 10241) := by
  refine ⟨?_, ?_, ?_, ?_⟩
  · intro content
    by_cases h : (utf8Encode content).length > 10 * 1024
    · simp [validateArticleContent, h]
    · simp [validateArticleContent, h]
      omega
  · intro content h
    have h' : (utf8Encode content).length > 10 * 1024 := by omega
    simp [validateArticleContent, h']
  · have hlen : (utf8Encode (List.replicate 10240 97)).length = 10240 := by
      rw [utf8Encode_replicate_97, List.length_replicate]
    unfold validateArticleContent
    rw [if_neg (by omega)]
  · have hlen : (utf8Encode (List.replicate 10241 97)).length = 10241 := by
      rw [utf8Encode_replicate_97, List.length_replicate]
    unfold validateArticleContent
    rw [if_pos (by omega), hlen]

/-- Witness for C7: a two-character body is accepted. -/
theorem c7_content_size_ceiling_witness :
    validateArticleContent (strCodes "hi") = Except.ok () :=
  (c7_content_size_ceiling.1 (strCodes "hi")).mpr (by decide)

/-! ### JSON serialization (`JSON.stringify` / `JSON.parse`), restricted to
the record shapes this repository emits -/

/-- Lowercase hexadecimal digit character. -/
def hexDigitChar (v : Nat) : Nat := if v < 10 then 48 + v else 87 + v

/-- `JSON.stringify` escaping of one string character. -/
def jsonEscapeChar (c : Nat) : List Nat :=
  if c = 34 then [92, 34]
  else if c = 92 then [92, 92]
  else if c = 8 then [92, 98]
  else if c = 9 then [92, 116]
  else if c = 10 then [92, 110]
  else if c = 12 then [92, 102]
  else if c = 13 then [92, 114]
  else if c < 32 then [92, 117, 48, 48, hexDigitChar (c / 16), hexDigitChar (c % 16)]
  else [c]

/-- A JSON string literal: quote, escaped characters, quote. -/
def jsonQuote (s : List Nat) : List Nat :=
  34 :: (s.flatMap jsonEscapeChar ++ [34])

/-- Parse the body of a JSON string literal (after the opening quote),
returning the decoded characters and the input after the closing quote.
Fuel-bounded on the input length. -/
def parseJsonStringAux : Nat → List Nat → Option (List Nat × List Nat)
  | 0, _ => none
  | _ + 1, [] => none
  | fuel + 1, c :: rest =>
    if c = 34 then some ([], rest)
    else if c = 92 then
      match rest with
      | [] => none
      | e :: rest2 =>
        if e = 34 then (parseJsonStringAux fuel rest2).map (fun p => (34 :: p.1, p.2))
        else if e = 92 then (parseJsonStringAux fuel rest2).map (fun p => (92 :: p.1, p.2))
        else if e = 98 then (parseJsonStringAux fuel rest2).map (fun p => (8 :: p.1, p.2))
        else if e = 116 then (parseJsonStringAux fuel rest2).map (fun p => (9 :: p.1, p.2))
        else if e = 110 then (parseJsonStringAux fuel rest2).map (fun p => (10 :: p.1, p.2))
        else if e = 102 then (parseJsonStringAux fuel rest2).map (fun p => (12 :: p.1, p.2))
        else if e = 114 then (parseJsonStringAux fuel rest2).map (fun p => (13 :: p.1, p.2))
        else if e = 117 then
          match rest2 with
          | h1 :: h2 :: h3 :: h4 :: rest3 =>
              match hexDigitVal h1, hexDigitVal h2, hexDigitVal h3, hexDigitVal h4 with
              | some v1, some v2, some v3, some v4 =>
                  (parseJsonStringAux fuel rest3).map
                    (fun p => ((((v1 * 16 + v2) * 16 + v3) * 16 + v4) :: p.1, p.2))
              | _, _, _, _ => none
          | _ => none
        else none
    else (parseJsonStringAux fuel rest).map (fun p => (c :: p.1, p.2))

/-- Parse a JSON string literal including its opening quote. -/
def parseJsonString (l : List Nat) : Option (List Nat × List Nat) :=
  match l with
  | c :: rest => if c = 34 then parseJsonStringAux rest.length rest else none
  | [] => none

theorem hexDigitVal_hexDigitChar : ∀ v < 16, hexDigitVal (hexDigitChar v) = some v := by
  decide

theorem parseJsonStringAux_round :
    ∀ (s : List Nat) (fuel : Nat) (rest : List Nat),
      (s.flatMap jsonEscapeChar).length + 1 ≤ fuel →
      parseJsonStringAux fuel (s.flatMap jsonEscapeChar ++ 34 :: rest) =
        some (s, rest) := by
  intro s
  induction s with
  | nil =>
      intro fuel rest hf
      obtain ⟨f, rfl⟩ : ∃ f, fuel = f + 1 := by
        cases fuel with
        | zero => simp at hf
        | succ n => exact ⟨n, rfl⟩
      simp [parseJsonStringAux]
  | cons c s' ih =>
      intro fuel rest hf
      rw [List.flatMap_cons] at hf ⊢
      obtain ⟨f, rfl⟩ : ∃ f, fuel = f + 1 := by
        cases fuel with
        | zero =>
            exfalso
            simp only [List.length_append] at hf
            omega
        | succ n => exact ⟨n, rfl⟩
      have hcl : 1 ≤ (jsonEscapeChar c).length := by
        unfold jsonEscapeChar
        repeat' split
        all_goals simp
      have ihf : (s'.flatMap jsonEscapeChar).length + 1 ≤ f := by
        simp only [List.length_append] at hf
        omega
      have ih' := fun r => ih f r ihf
      by_cases h34 : c = 34
      · subst h34
        rw [show jsonEscapeChar 34 = [92, 34] from by decide]
        simp [parseJsonStringAux, ih' rest]
      · by_cases h92 : c = 92
        · subst h92
          rw [show jsonEscapeChar 92 = [92, 92] from by decide]
          simp [parseJsonStringAux, ih' rest]
        · by_cases h8 : c = 8
          · subst h8
            rw [show jsonEscapeChar 8 = [92, 98] from by decide]
            simp [parseJsonStringAux, ih' rest]
          · by_cases h9 : c = 9
            · subst h9
              rw [show jsonEscapeChar 9 = [92, 116] from by decide]
              simp [parseJsonStringAux, ih' rest]
            · by_cases h10 : c = 10
              · subst h10
                rw [show jsonEscapeChar 10 = [92, 110] from by decide]
                simp [parseJsonStringAux, ih' rest]
              · by_cases h12 : c = 12
                · subst h12
                  rw [show jsonEscapeChar 12 = [92, 102] from by decide]
                  simp [parseJsonStringAux, ih' rest]
                · by_cases h13 : c = 13
                  · subst h13
                    rw [show jsonEscapeChar 13 = [92, 114] from by decide]
                    simp [parseJsonStringAux, ih' rest]
                  · by_cases hctl : c < 32
                    · have hesc : jsonEscapeChar c =
                          [92, 117, 48, 48, hexDigitChar (c / 16), hexDigitChar (c % 16)] := by
                        unfold jsonEscapeChar
                        rw [if_neg h34, if_neg h92, if_neg h8, if_neg h9, if_neg h10,
                          if_neg h12, if_neg h13, if_pos hctl]
                      rw [hesc]
                      simp [parseJsonStringAux,
                        show hexDigitVal 48 = some 0 from by decide,
                        hexDigitVal_hexDigitChar (c / 16) (by omega),
                        hexDigitVal_hexDigitChar (c % 16) (by omega),
                        ih' rest]
                      omega
                    · have hesc : jsonEscapeChar c = [c] := by
                        unfold jsonEscapeChar
                        rw [if_neg h34, if_neg h92, if_neg h8, if_neg h9, if_neg h10,
                          if_neg h12, if_neg h13, if_neg hctl]
                      rw [hesc]
                      simp [parseJsonStringAux, h34, h92, ih' rest]

theorem parseJsonString_round (s rest : List Nat) :
    parseJsonString (jsonQuote s ++ rest) = some (s, rest) := by
  unfold jsonQuote parseJsonString
  simp only [List.cons_append, List.append_assoc, List.singleton_append,
    List.nil_append, if_true]
  exact parseJsonStringAux_round s _ rest (by simp [List.length_append])

/-- Consume a literal prefix; `none` when the input does not start with it. -/
def dropLit : List Nat → List Nat → Option (List Nat)
  | [], l => some l
  | _ :: _, [] => none
  | a :: as, b :: bs => if a = b then dropLit as bs else none

theorem dropLit_append : ∀ (lit rest : List Nat), dropLit lit (lit ++ rest) = some rest := by
  intro lit
  induction lit with
  | nil => intro rest; rfl
  | cons a as ih =>
      intro rest
      simp [dropLit, ih]

/-- Parse a run of decimal digits into a number (fuel-bounded). -/
def parseNatAux : Nat → Nat → List Nat → Nat × List Nat
  | 0, acc, l => (acc, l)
  | _ + 1, acc, [] => (acc, [])
  | fuel + 1, acc, c :: rest =>
      if 48 ≤ c ∧ c ≤ 57 then parseNatAux fuel (acc * 10 + (c - 48)) rest
      else (acc, c :: rest)

/-- Parse a JSON number (non-negative integer form). -/
def parseJsonNat (l : List Nat) : Option (Nat × List Nat) :=
  match l with
  | c :: _ => if 48 ≤ c ∧ c ≤ 57 then some (parseNatAux l.length 0 l) else none
  | [] => none

/-- Digit accumulation value of a digit-character list. -/
def digitsVal (acc : Nat) (ds : List Nat) : Nat :=
  ds.foldl (fun a d => a * 10 + (d - 48)) acc

theorem parseNatAux_digits :
    ∀ (ds : List Nat) (fuel acc : Nat) (rest : List Nat),
      ds.length ≤ fuel → (∀ d ∈ ds, 48 ≤ d ∧ d ≤ 57) →
      (∀ r0, rest = r0 :: (rest.drop 1) → ¬(48 ≤ r0 ∧ r0 ≤ 57)) →
      parseNatAux fuel acc (ds ++ rest) = (digitsVal acc ds, rest) := by
  intro ds
  induction ds with
  | nil =>
      intro fuel acc rest _ _ hrest
      cases rest with
      | nil => cases fuel <;> rfl
      | cons r0 rs =>
          have hr := hrest r0 (by simp)
          cases fuel with
          | zero => rfl
          | succ f =>
              simp only [List.nil_append, parseNatAux, if_neg hr]
              rfl
  | cons d ds' ih =>
      intro fuel acc rest hf hds hrest
      obtain ⟨f, rfl⟩ : ∃ f, fuel = f + 1 := by
        cases fuel with
        | zero => simp at hf
        | succ n => exact ⟨n, rfl⟩
      have hd := hds d (by simp)
      have step : parseNatAux (f + 1) acc ((d :: ds') ++ rest) =
          parseNatAux f (acc * 10 + (d - 48)) (ds' ++ rest) := by
        simp [parseNatAux, hd]
      rw [step, ih f (acc * 10 + (d - 48)) rest (by simpa using hf)
        (fun x hx => hds x (by simp [hx])) hrest]
      rfl

theorem digitsVal_decDigits :
    ∀ (n acc : Nat), digitsVal acc (decDigits n) =
      acc * 10 ^ (decDigits n).length + n := by
  intro n
  induction n using Nat.strong_induction_on with
  | _ n ih =>
      intro acc
      by_cases hn : n < 10
      · rw [decDigits_small n hn]
        unfold digitsVal
        simp only [List.foldl_cons, List.foldl_nil, List.length_cons,
          List.length_nil, pow_one, zero_add, pow_succ, pow_zero, one_mul]
        omega
      · rw [decDigits_step n (by omega)]
        unfold digitsVal
        rw [List.foldl_append]
        have ihv := ih (n / 10) (by omega) acc
        unfold digitsVal at ihv
        rw [ihv]
        simp only [List.foldl_cons, List.foldl_nil, List.length_append,
          List.length_cons, List.length_nil]
        rw [show (decDigits (n / 10)).length + (0 + 1) =
          (decDigits (n / 10)).length + 1 from by omega, pow_succ,
          ← Nat.mul_assoc]
        omega

theorem decDigits_are_digits :
    ∀ (n : Nat), ∀ d ∈ decDigits n, 48 ≤ d ∧ d ≤ 57 := by
  intro n
  induction n using Nat.strong_induction_on with
  | _ n ih =>
      by_cases hn : n < 10
      · rw [decDigits_small n hn]
        intro d hd
        simp at hd
        omega
      · rw [decDigits_step n (by omega)]
        intro d hd
        simp only [List.mem_append, List.mem_cons, List.not_mem_nil, or_false] at hd
        rcases hd with h | h
        · exact ih (n / 10) (by omega) d h
        · omega

theorem decDigits_head_digit (n : Nat) :
    ∃ d ds, decDigits n = d :: ds ∧ 48 ≤ d ∧ d ≤ 57 := by
  by_cases hn : n < 10
  · rw [decDigits_small n hn]
    exact ⟨48 + n, [], rfl, by omega, by omega⟩
  · rw [decDigits_step n (by omega)]
    obtain ⟨d, ds, he, h1, h2⟩ := decDigits_head_digit (n / 10)
    rw [he]
    exact ⟨d, ds ++ [48 + n % 10], rfl, h1, h2⟩
  termination_by n
  decreasing_by
    have : n / 10 < n := Nat.div_lt_self (by omega) (by omega)
    omega

theorem parseJsonNat_decDigits (n : Nat) (rest : List Nat)
    (hrest : ∀ r0, rest = r0 :: (rest.drop 1) → ¬(48 ≤ r0 ∧ r0 ≤ 57)) :
    parseJsonNat (decDigits n ++ rest) = some (n, rest) := by
  obtain ⟨d, ds, he, h1, h2⟩ := decDigits_head_digit n
  unfold parseJsonNat
  rw [he]
  simp only [List.cons_append]
  rw [if_pos ⟨h1, h2⟩]
  rw [← List.cons_append, ← he]
  rw [parseNatAux_digits (decDigits n) _ 0 rest
    (by simp [List.length_append]) (decDigits_are_digits n) hrest]
  rw [digitsVal_decDigits]
  simp

/-- The minimized article projection shared through URLs: the fields of the
`shareData`/`fullData` objects. -/
structure MinArticle where
  id : List Nat
  title : List Nat
  content : List Nat
  author : List Nat
  createdAt : Nat
  isPublic : Bool
  image : Option (List Nat)
  txId : List Nat
deriving DecidableEq

/-- `JSON.stringify(shareData)` of `generateShareableURL` /
`createShortURL`: short field names, `p` hardcoded to 1, `img` omitted when
the image is absent or empty (JavaScript truthiness). -/
def compactShareJson (m : MinArticle) : List Nat :=
  strCodes "\x7b\"i\":" ++ jsonQuote m.id ++
  strCodes ",\"t\":" ++ jsonQuote m.title ++
  strCodes ",\"c\":" ++ jsonQuote m.content ++
  strCodes ",\"a\":" ++ jsonQuote m.author ++
  strCodes ",\"d\":" ++ decDigits m.createdAt ++
  strCodes ",\"p\":" ++ decDigits 1 ++
  (match m.image with
   | some img => if img = [] then [] else strCodes ",\"img\":" ++ jsonQuote img
   | none => []) ++
  strCodes ",\"x\":" ++ jsonQuote m.txId ++ strCodes "\x7d"

/-- `JSON.stringify(fullData)` of `createShortURL`: long field names,
`isPublic` hardcoded to `true`, `image` omitted when absent or empty. -/
def fullShareJson (m : MinArticle) : List Nat :=
  strCodes "\x7b\"id\":" ++ jsonQuote m.id ++
  strCodes ",\"title\":" ++ jsonQuote m.title ++
  strCodes ",\"content\":" ++ jsonQuote m.content ++
  strCodes ",\"author\":" ++ jsonQuote m.author ++
  strCodes ",\"createdAt\":" ++ decDigits m.createdAt ++
  strCodes ",\"isPublic\":true" ++
  (match m.image with
   | some img => if img = [] then [] else strCodes ",\"image\":" ++ jsonQuote img
   | none => []) ++
  strCodes ",\"txId\":" ++ jsonQuote m.txId ++ strCodes "\x7d"

/-- `JSON.parse` of the compact share shape followed by the field
re-expansion of `getArticleById` / `resolveShortURL` (`i` to `id`, `!!p` to
`isPublic`, and so on).  The parser accepts exactly the serializations the
repository emits; on any other input the source path also fails or is
rejected by the subsequent id/visibility validation. -/
def parseCompactShare (l : List Nat) : Option MinArticle :=
  match dropLit (strCodes "\x7b\"i\":") l with
  | none => none
  | some r0 =>
  match parseJsonString r0 with
  | none => none
  | some (iv, r1) =>
  match dropLit (strCodes ",\"t\":") r1 with
  | none => none
  | some r2 =>
  match parseJsonString r2 with
  | none => none
  | some (tv, r3) =>
  match dropLit (strCodes ",\"c\":") r3 with
  | none => none
  | some r4 =>
  match parseJsonString r4 with
  | none => none
  | some (cv, r5) =>
  match dropLit (strCodes ",\"a\":") r5 with
  | none => none
  | some r6 =>
  match parseJsonString r6 with
  | none => none
  | some (av, r7) =>
  match dropLit (strCodes ",\"d\":") r7 with
  | none => none
  | some r8 =>
  match parseJsonNat r8 with
  | none => none
  | some (dv, r9) =>
  match dropLit (strCodes ",\"p\":") r9 with
  | none => none
  | some r10 =>
  match parseJsonNat r10 with
  | none => none
  | some (pv, r11) =>
  match dropLit (strCodes ",\"img\":") r11 with
  | some ri =>
      (match parseJsonString ri with
       | none => none
       | some (imgv, ri2) =>
       match dropLit (strCodes ",\"x\":") ri2 with
       | none => none
       | some rx =>
       match parseJsonString rx with
       | none => none
       | some (xv, rend) =>
         if rend = strCodes "\x7d" then
           some { id := iv, title := tv, content := cv, author := av,
                  createdAt := dv, isPublic := pv != 0,
                  image := some imgv, txId := xv }
         else none)
  | none =>
  match dropLit (strCodes ",\"x\":") r11 with
  | none => none
  | some rx =>
  match parseJsonString rx with
  | none => none
  | some (xv, rend) =>
    if rend = strCodes "\x7d" then
      some { id := iv, title := tv, content := cv, author := av,
             createdAt := dv, isPublic := pv != 0,
             image := none, txId := xv }
    else none

/-- `JSON.parse` of the full (long-field-name) share shape together with the
direct field reads of the `?shared=` load path. -/
def parseFullShare (l : List Nat) : Option MinArticle :=
  match dropLit (strCodes "\x7b\"id\":") l with
  | none => none
  | some r0 =>
  match parseJsonString r0 with
  | none => none
  | some (iv, r1) =>
  match dropLit (strCodes ",\"title\":") r1 with
  | none => none
  | some r2 =>
  match parseJsonString r2 with
  | none => none
  | some (tv, r3) =>
  match dropLit (strCodes ",\"content\":") r3 with
  | none => none
  | some r4 =>
  match parseJsonString r4 with
  | none => none
  | some (cv, r5) =>
  match dropLit (strCodes ",\"author\":") r5 with
  | none => none
  | some r6 =>
  match parseJsonString r6 with
  | none => none
  | some (av, r7) =>
  match dropLit (strCodes ",\"createdAt\":") r7 with
  | none => none
  | some r8 =>
  match parseJsonNat r8 with
  | none => none
  | some (dv, r9) =>
  match dropLit (strCodes ",\"isPublic\":true") r9 with
  | none => none
  | some r10 =>
  match dropLit (strCodes ",\"image\":") r10 with
  | some ri =>
      (match parseJsonString ri with
       | none => none
       | some (imgv, ri2) =>
       match dropLit (strCodes ",\"txId\":") ri2 with
       | none => none
       | some rx =>
       match parseJsonString rx with
       | none => none
       | some (xv, rend) =>
         if rend = strCodes "\x7d" then
           some { id := iv, title := tv, content := cv, author := av,
                  createdAt := dv, isPublic := true,
                  image := some imgv, txId := xv }
         else none)
  | none =>
  match dropLit (strCodes ",\"txId\":") r10 with
  | none => none
  | some rx =>
  match parseJsonString rx with
  | none => none
  | some (xv, rend) =>
    if rend = strCodes "\x7d" then
      some { id := iv, title := tv, content := cv, author := av,
             createdAt := dv, isPublic := true,
             image := none, txId := xv }
    else none

theorem dropLit_cons_same (a : Nat) (as bs : List Nat) :
    dropLit (a :: as) (a :: bs) = dropLit as bs := by
  simp [dropLit]

theorem dropLit_cons_ne (a b : Nat) (as bs : List Nat) (h : a ≠ b) :
    dropLit (a :: as) (b :: bs) = none := by
  simp [dropLit, h]

theorem dropLit_nil_lit (l : List Nat) : dropLit [] l = some l := rfl

theorem notDigitHead_cons (c : Nat) (hc : ¬(48 ≤ c ∧ c ≤ 57)) (X : List Nat) :
    ∀ r0, (c :: X) = r0 :: ((c :: X).drop 1) → ¬(48 ≤ r0 ∧ r0 ≤ 57) := by
  intro r0 h
  injection h with h1 _
  omega

theorem parseJsonNat_decDigits_44 (n : Nat) (X : List Nat) :
    parseJsonNat (decDigits n ++ 44 :: X) = some (n, 44 :: X) :=
  parseJsonNat_decDigits n (44 :: X) (notDigitHead_cons 44 (by omega) X)

theorem parseCompactShare_round (m : MinArticle)
    (hpub : m.isPublic = true) (himg : m.image ≠ some []) :
    parseCompactShare (compactShareJson m) = some m := by
  obtain ⟨iv, tv, cv, av, dv, pb, img, xv⟩ := m
  simp only at hpub himg
  subst hpub
  cases img with
  | none =>
      simp only [compactShareJson, parseCompactShare,
        show strCodes "\x7b\"i\":" = [123, 34, 105, 34, 58] from by decide,
        show strCodes ",\"t\":" = [44, 34, 116, 34, 58] from by decide,
        show strCodes ",\"c\":" = [44, 34, 99, 34, 58] from by decide,
        show strCodes ",\"a\":" = [44, 34, 97, 34, 58] from by decide,
        show strCodes ",\"d\":" = [44, 34, 100, 34, 58] from by decide,
        show strCodes ",\"p\":" = [44, 34, 112, 34, 58] from by decide,
        show strCodes ",\"img\":" = [44, 34, 105, 109, 103, 34, 58] from by decide,
        show strCodes ",\"x\":" = [44, 34, 120, 34, 58] from by decide,
        show strCodes "\x7d" = [125] from by decide,
        List.cons_append, List.nil_append, List.append_nil, List.append_assoc,
        dropLit_cons_same, dropLit_cons_ne, dropLit_nil_lit,
        parseJsonString_round, parseJsonNat_decDigits_44]
      rw [dropLit_cons_ne 105 120 [109, 103, 34, 58] _ (by omega)]
      simp
  | some imgv =>
      have hne : ¬imgv = [] := fun h => himg (by rw [h])
      simp only [compactShareJson, parseCompactShare, if_neg hne,
        show strCodes "\x7b\"i\":" = [123, 34, 105, 34, 58] from by decide,
        show strCodes ",\"t\":" = [44, 34, 116, 34, 58] from by decide,
        show strCodes ",\"c\":" = [44, 34, 99, 34, 58] from by decide,
        show strCodes ",\"a\":" = [44, 34, 97, 34, 58] from by decide,
        show strCodes ",\"d\":" = [44, 34, 100, 34, 58] from by decide,
        show strCodes ",\"p\":" = [44, 34, 112, 34, 58] from by decide,
        show strCodes ",\"img\":" = [44, 34, 105, 109, 103, 34, 58] from by decide,
        show strCodes ",\"x\":" = [44, 34, 120, 34, 58] from by decide,
        show strCodes "\x7d" = [125] from by decide,
        List.cons_append, List.nil_append, List.append_nil, List.append_assoc,
        dropLit_cons_same, dropLit_cons_ne, dropLit_nil_lit,
        parseJsonString_round, parseJsonNat_decDigits_44]
      simp

theorem parseFullShare_round (m : MinArticle)
    (hpub : m.isPublic = true) (himg : m.image ≠ some []) :
    parseFullShare (fullShareJson m) = some m := by
  obtain ⟨iv, tv, cv, av, dv, pb, img, xv⟩ := m
  simp only at hpub himg
  subst hpub
  cases img with
  | none =>
      simp only [fullShareJson, parseFullShare,
        show strCodes "\x7b\"id\":" = [123, 34, 105, 100, 34, 58] from by decide,
        show strCodes ",\"title\":" = [44, 34, 116, 105, 116, 108, 101, 34, 58] from by decide,
        show strCodes ",\"content\":" = [44, 34, 99, 111, 110, 116, 101, 110, 116, 34, 58] from by decide,
        show strCodes ",\"author\":" = [44, 34, 97, 117, 116, 104, 111, 114, 34, 58] from by decide,
        show strCodes ",\"createdAt\":" = [44, 34, 99, 114, 101, 97, 116, 101, 100, 65, 116, 34, 58] from by decide,
        show strCodes ",\"isPublic\":true" = [44, 34, 105, 115, 80, 117, 98, 108, 105, 99, 34, 58, 116, 114, 117, 101] from by decide,
        show strCodes ",\"image\":" = [44, 34, 105, 109, 97, 103, 101, 34, 58] from by decide,
        show strCodes ",\"txId\":" = [44, 34, 116, 120, 73, 100, 34, 58] from by decide,
        show strCodes "\x7d" = [125] from by decide,
        List.cons_append, List.nil_append, List.append_nil, List.append_assoc,
        dropLit_cons_same, dropLit_cons_ne, dropLit_nil_lit,
        parseJsonString_round, parseJsonNat_decDigits_44]
      rw [dropLit_cons_ne 105 116 [109, 97, 103, 101, 34, 58] _ (by omega)]
      simp
  | some imgv =>
      have hne : ¬imgv = [] := fun h => himg (by rw [h])
      simp only [fullShareJson, parseFullShare, if_neg hne,
        show strCodes "\x7b\"id\":" = [123, 34, 105, 100, 34, 58] from by decide,
        show strCodes ",\"title\":" = [44, 34, 116, 105, 116, 108, 101, 34, 58] from by decide,
        show strCodes ",\"content\":" = [44, 34, 99, 111, 110, 116, 101, 110, 116, 34, 58] from by decide,
        show strCodes ",\"author\":" = [44, 34, 97, 117, 116, 104, 111, 114, 34, 58] from by decide,
        show strCodes ",\"createdAt\":" = [44, 34, 99, 114, 101, 97, 116, 101, 100, 65, 116, 34, 58] from by decide,
        show strCodes ",\"isPublic\":true" = [44, 34, 105, 115, 80, 117, 98, 108, 105, 99, 34, 58, 116, 114, 117, 101] from by decide,
        show strCodes ",\"image\":" = [44, 34, 105, 109, 97, 103, 101, 34, 58] from by decide,
        show strCodes ",\"txId\":" = [44, 34, 116, 120, 73, 100, 34, 58] from by decide,
        show strCodes "\x7d" = [125] from by decide,
        List.cons_append, List.nil_append, List.append_nil, List.append_assoc,
        dropLit_cons_same, dropLit_cons_ne, dropLit_nil_lit,
        parseJsonString_round, parseJsonNat_decDigits_44]
      simp

/-! ### The shareable-link codec of `generateShareableURL` / `getArticleById` -/

/-- Modelled from the pako contract: `pako.deflate` is an injective lossless
coding of the UTF-8 bytes and `pako.inflate` is its inverse
(`inflate (deflate x) = x`).  The zlib/DEFLATE bit format itself is
third-party library internals, modelled here as the two-byte zlib header
followed by the payload. -/
def pakoDeflateRaw (bytes : List Nat) : List Nat := 120 :: 218 :: bytes

/-- Modelled from the pako contract: inverse of `pakoDeflateRaw`; `none` is
a thrown inflate error. -/
def pakoInflateRaw (l : List Nat) : Option (List Nat) :=
  match l with
  | 120 :: 218 :: bytes => some bytes
  | _ => none

/-- `pako.deflate(str, ...)`: the string is UTF-8 encoded, then compressed. -/
def pakoDeflateStr (s : List Nat) : List Nat := pakoDeflateRaw (utf8Encode s)

/-- `pako.inflate(bytes, to: string)`: decompress, then UTF-8 decode. -/
def pakoInflateStr (bytes : List Nat) : Option (List Nat) :=
  (pakoInflateRaw bytes).bind utf8Decode

/-- `ArticleService.compressString` (main path): deflate, `btoa`, URL-safe
replacement, padding stripped. -/
def compressString (s : List Nat) : List Nat :=
  toUrlSafe (b64Encode (pakoDeflateStr s))

/-- `ArticleService.decompressString`: restore base64, `atob`, inflate;
on any failure fall back to plain `atob` of the input. -/
def decompressString (l : List Nat) : Option (List Nat) :=
  match (b64Decode (fromUrlSafe l)).bind pakoInflateStr with
  | some s => some s
  | none => b64Decode l

/-- `btoa` on a JS string: throws (`none`) when a character is above
`U+00FF`. -/
def btoaStr (s : List Nat) : Option (List Nat) :=
  if s.all (· < 256) then some (b64Encode s) else none

/-- The `?c=` query value of `generateShareableURL(article, true)`. -/
def generateShareableCompressed (m : MinArticle) : List Nat :=
  compressString (compactShareJson m)

/-- The `?shared=` query value of `generateShareableURL(article, false)`:
plain base64 of the SHORT-field-name JSON. -/
def generateShareablePlain (m : MinArticle) : Option (List Nat) :=
  btoaStr (compactShareJson m)

/-- The `?shared=` query value of the full URL built by
`URLShortenerService.createShortURL`: plain base64 of the long-field-name
JSON. -/
def fullUrlSharedParam (m : MinArticle) : Option (List Nat) :=
  btoaStr (fullShareJson m)

/-- The `?c=` decode path of `getArticleById`: decompress, `JSON.parse`,
re-expand the compact fields. -/
def decodeCompressedParam (data : List Nat) : Option MinArticle :=
  (decompressString data).bind parseCompactShare

/-- The `?shared=` decode path of `getArticleById`: `atob`, `JSON.parse`,
read the long-named fields. -/
def decodeSharedParam (data : List Nat) : Option MinArticle :=
  (b64Decode data).bind parseFullShare

theorem decompressString_compressString (s : List Nat)
    (hs : ∀ c ∈ s, ValidScalar c) :
    decompressString (compressString s) = some s := by
  unfold compressString decompressString pakoDeflateStr pakoDeflateRaw
  have hb : ∀ b ∈ 120 :: 218 :: utf8Encode s, b < 256 := by
    intro b hb
    simp only [List.mem_cons] at hb
    rcases hb with rfl | rfl | h
    · omega
    · omega
    · exact utf8Encode_lt_256 s (fun c hc => (hs c hc).1) b h
  rw [fromUrlSafe_toUrlSafe _ hb, b64Encode_decode _ hb]
  simp only [Option.bind_some, pakoInflateStr, pakoInflateRaw,
    utf8Decode_encode s hs, Option.bind]

theorem hexDigitChar_lt_128 (v : Nat) (h : v < 16) : hexDigitChar v < 128 := by
  unfold hexDigitChar
  split <;> omega

theorem jsonEscapeChar_mem (c b : Nat) (hb : b ∈ jsonEscapeChar c) :
    b = c ∨ b < 128 := by
  unfold jsonEscapeChar at hb
  split at hb
  · simp at hb
    rcases hb with rfl | rfl
    · right; omega
    · right; omega
  · split at hb
    · simp at hb
      subst hb
      right; omega
    · split at hb
      · simp at hb
        rcases hb with rfl | rfl
        · right; omega
        · right; omega
      · split at hb
        · simp at hb
          rcases hb with rfl | rfl
          · right; omega
          · right; omega
        · split at hb
          · simp at hb
            rcases hb with rfl | rfl
            · right; omega
            · right; omega
          · split at hb
            · simp at hb
              rcases hb with rfl | rfl
              · right; omega
              · right; omega
            · split at hb
              · simp at hb
                rcases hb with rfl | rfl
                · right; omega
                · right; omega
              · split at hb
                · simp at hb
                  rcases hb with rfl | rfl | rfl | rfl | rfl
                  · right; omega
                  · right; omega
                  · right; omega
                  · right; exact hexDigitChar_lt_128 _ (by omega)
                  · right; exact hexDigitChar_lt_128 _ (by omega)
                · simp at hb
                  left; exact hb

theorem append_valid {P : Nat → Prop} {A B : List Nat}
    (hA : ∀ c ∈ A, P c) (hB : ∀ c ∈ B, P c) : ∀ c ∈ A ++ B, P c := by
  intro c hc
  rcases List.mem_append.mp hc with h | h
  · exact hA c h
  · exact hB c h

theorem jsonQuote_valid (s : List Nat) (hs : ∀ c ∈ s, ValidScalar c) :
    ∀ b ∈ jsonQuote s, ValidScalar b := by
  intro b hb
  unfold jsonQuote at hb
  simp only [List.mem_cons, List.mem_append, List.mem_flatMap,
    List.mem_singleton, List.not_mem_nil, or_false] at hb
  rcases hb with rfl | ⟨c, hc, hbc⟩ | rfl
  · exact ⟨by omega, by omega⟩
  · rcases jsonEscapeChar_mem c b hbc with rfl | hlt
    · exact hs b hc
    · exact ⟨by omega, by omega⟩
  · exact ⟨by omega, by omega⟩

theorem decDigits_valid (n : Nat) : ∀ b ∈ decDigits n, ValidScalar b := by
  intro b hb
  have := decDigits_are_digits n b hb
  exact ⟨by omega, by omega⟩

theorem compactShareJson_valid (m : MinArticle)
    (hid : ∀ c ∈ m.id, ValidScalar c)
    (htitle : ∀ c ∈ m.title, ValidScalar c)
    (hcontent : ∀ c ∈ m.content, ValidScalar c)
    (hauthor : ∀ c ∈ m.author, ValidScalar c)
    (htx : ∀ c ∈ m.txId, ValidScalar c)
    (himgv : ∀ img, m.image = some img → ∀ c ∈ img, ValidScalar c) :
    ∀ c ∈ compactShareJson m, ValidScalar c := by
  obtain ⟨iv, tv, cv, av, dv, pb, img, xv⟩ := m
  simp only at hid htitle hcontent hauthor htx himgv
  cases img with
  | none =>
      simp only [compactShareJson, List.nil_append, List.append_nil,
        List.forall_mem_append]
      repeat' apply And.intro
      all_goals first
        | exact jsonQuote_valid _ hid
        | exact jsonQuote_valid _ htitle
        | exact jsonQuote_valid _ hcontent
        | exact jsonQuote_valid _ hauthor
        | exact jsonQuote_valid _ htx
        | exact decDigits_valid _
        | decide
  | some imgv =>
      by_cases he : imgv = []
      · simp only [compactShareJson, he, if_pos rfl, List.nil_append,
          List.append_nil, List.forall_mem_append]
        repeat' apply And.intro
        all_goals first
          | exact jsonQuote_valid _ hid
          | exact jsonQuote_valid _ htitle
          | exact jsonQuote_valid _ hcontent
          | exact jsonQuote_valid _ hauthor
          | exact jsonQuote_valid _ htx
          | exact decDigits_valid _
          | decide
      · simp only [compactShareJson, if_neg he, List.nil_append,
          List.append_nil, List.forall_mem_append]
        repeat' apply And.intro
        all_goals first
          | exact jsonQuote_valid _ hid
          | exact jsonQuote_valid _ htitle
          | exact jsonQuote_valid _ hcontent
          | exact jsonQuote_valid _ hauthor
          | exact jsonQuote_valid _ htx
          | exact jsonQuote_valid _ (himgv imgv rfl)
          | exact decDigits_valid _
          | decide

/-- A concrete public article used for concrete instances. -/
def c4Article : MinArticle :=
  { id := strCodes "article_1", title := strCodes "Title",
    content := strCodes "Body", author := strCodes "kaspa:qq",
    createdAt := 1700000000000, isPublic := true, image := none,
    txId := strCodes "sig_1" }

set_option maxRecDepth 400000 in
set_option maxHeartbeats 2000000 in
/-- **C4 counterexample**: the plain branch of `generateShareableURL`
(`compress = false`) emits SHORT field names under `?shared=`, but the
`?shared=` load path reads LONG field names, so its output is never
accepted: decoding the plain encoding of a concrete article does not
restore it. -/
theorem c4_plain_branch_not_decodable :
    generateShareablePlain c4Article =
      some (b64Encode (compactShareJson c4Article)) ∧
    decodeSharedParam (b64Encode (compactShareJson c4Article)) = none := by
  constructor
  · decide
  · decide

/-- **C4 (amended)**: the compressed `?c=` encoding round-trips through the
`?c=` load path, and the long-field-name plain encoding used for the
short-URL service's full URL round-trips through the `?shared=` load path
(whenever `btoa` accepts it, that is, the JSON is Latin-1); the plain
branch of `generateShareableURL` itself does not round-trip (see the
counterexample).  The empty-string image is excluded: JavaScript truthiness
drops it at encode time. -/
theorem c4_share_codec_roundtrip (m : MinArticle)
    (hpub : m.isPublic = true) (himg : m.image ≠ some [])
    (hid : ∀ c ∈ m.id, ValidScalar c)
    (htitle : ∀ c ∈ m.title, ValidScalar c)
    (hcontent : ∀ c ∈ m.content, ValidScalar c)
    (hauthor : ∀ c ∈ m.author, ValidScalar c)
    (htx : ∀ c ∈ m.txId, ValidScalar c)
    (himgv : ∀ img, m.image = some img → ∀ c ∈ img, ValidScalar c) :
    decodeCompressedParam (generateShareableCompressed m) = some m ∧
    (∀ e, fullUrlSharedParam m = some e → decodeSharedParam e = some m) := by
  constructor
  · unfold decodeCompressedParam generateShareableCompressed
    rw [decompressString_compressString (compactShareJson m)
      (compactShareJson_valid m hid htitle hcontent hauthor htx himgv)]
    rw [Option.some_bind]
    exact parseCompactShare_round m hpub himg
  · intro e he
    unfold fullUrlSharedParam btoaStr at he
    by_cases hall : (fullShareJson m).all (· < 256)
    · rw [if_pos hall] at he
      obtain rfl : b64Encode (fullShareJson m) = e := by
        injection he
      unfold decodeSharedParam
      rw [b64Encode_decode (fullShareJson m)
        (fun b hb => by
          have := List.all_eq_true.mp hall b hb
          simpa using this)]
      rw [Option.some_bind]
      exact parseFullShare_round m hpub himg
    · rw [if_neg hall] at he
      cases he

set_option maxRecDepth 400000 in
set_option maxHeartbeats 2000000 in
/-- Witness for the amended C4 at a concrete article, for both encodings. -/
theorem c4_share_codec_roundtrip_witness :
    decodeCompressedParam (generateShareableCompressed c4Article) =
      some c4Article ∧
    decodeSharedParam (b64Encode (fullShareJson c4Article)) = some c4Article := by
  have h := c4_share_codec_roundtrip c4Article (by decide) (by decide)
    (by decide) (by decide) (by decide) (by decide) (by decide)
    (by intro img h; cases h)
  exact ⟨h.1, h.2 (b64Encode (fullShareJson c4Article)) (by decide)⟩

/-! ### `ArticleService.getArticleById` (URL-parameter resolution) -/

/-- `storeArticleForSharing`: cache a public article under its id with a
7-day expiry; private articles are not cached. -/
def storeArticleForSharing (cache : List (MinArticle × Nat)) (m : MinArticle)
    (now : Nat) : List (MinArticle × Nat) :=
  if m.isPublic then
    (m, now + 604800000) :: cache.filter (fun e => ¬(e.1.id = m.id))
  else cache

/-- `getSharedArticle`: look up the shared-article cache, honoring the
expiry timestamp.  (The lazy deletion of an expired row only affects later
calls and is elided here.) -/
def getSharedArticle (cache : List (MinArticle × Nat)) (id : List Nat)
    (now : Nat) : Option MinArticle :=
  match cache.find? (fun e => e.1.id == id) with
  | some e => if e.2 > now then some e.1 else none
  | none => none

/-- The tail of the resolution chain: the locally decrypted articles, then
the shared cache.  The decrypted list (`getDecryptedArticles`) is passed in:
its crypto and storage mechanics are modelled elsewhere (C1, C8). -/
def localThenCache (locals : List MinArticle) (cache : List (MinArticle × Nat))
    (id : List Nat) (now : Nat) : Option MinArticle :=
  match locals.find? (fun a => a.id == id) with
  | some a => some a
  | none => getSharedArticle cache id now

/-- The `?shared=` stage of `getArticleById` followed by the remaining
strategies. -/
def resolveSharedStage (id : List Nat) (sharedData : Option (List Nat))
    (locals : List MinArticle) (cache : List (MinArticle × Nat)) (now : Nat) :
    Option MinArticle :=
  match sharedData with
  | some sd =>
      match decodeSharedParam sd with
      | some a =>
          if a.id == id && a.isPublic then some a
          else localThenCache locals cache id now
      | none => localThenCache locals cache id now
  | none => localThenCache locals cache id now

/-- `ArticleService.getArticleById(id, sharedData?, compressedData?)`: try
the compressed URL form, then the plain shared form, then the local store,
then the shared cache.  Every decode failure is caught and falls through;
the function is total (never throws).  The cache write of an accepted
article affects later calls only and is elided. -/
def getArticleById (id : List Nat) (sharedData compressedData : Option (List Nat))
    (locals : List MinArticle) (cache : List (MinArticle × Nat)) (now : Nat) :
    Option MinArticle :=
  match compressedData with
  | some cd =>
      match decodeCompressedParam cd with
      | some a =>
          if a.id == id && a.isPublic then some a
          else resolveSharedStage id sharedData locals cache now
      | none => resolveSharedStage id sharedData locals cache now
  | none => resolveSharedStage id sharedData locals cache now

/-- **C9**: a URL-supplied encoded article is accepted only when its
embedded id equals the expected id and it is public: a valid compressed
form is returned as decoded; otherwise, when neither URL form decodes to a
matching public article, resolution falls through to the local store and
then the shared cache.  The function is total, so no decode failure ever
propagates to the caller. -/
theorem c9_url_resolution (id : List Nat) (comp shared : Option (List Nat))
    (locals : List MinArticle) (cache : List (MinArticle × Nat)) (now : Nat) :
    (∀ cd a, comp = some cd → decodeCompressedParam cd = some a →
       a.id = id → a.isPublic = true →
       getArticleById id shared comp locals cache now = some a) ∧
    ((∀ cd a, comp = some cd → decodeCompressedParam cd = some a →
        ¬(a.id = id ∧ a.isPublic = true)) →
      (∀ sd a, shared = some sd → decodeSharedParam sd = some a →
         a.id = id → a.isPublic = true →
         getArticleById id shared comp locals cache now = some a) ∧
      ((∀ sd a, shared = some sd → decodeSharedParam sd = some a →
          ¬(a.id = id ∧ a.isPublic = true)) →
        getArticleById id shared comp locals cache now =
          localThenCache locals cache id now)) := by
  constructor
  · intro cd a hcd hdec hid hpub
    subst hcd
    simp [getArticleById, hdec, hid, hpub]
  · intro hcompInvalid
    have hcompFall : getArticleById id shared comp locals cache now =
        resolveSharedStage id shared locals cache now := by
      cases comp with
      | none => rfl
      | some cd =>
          cases hdec : decodeCompressedParam cd with
          | none => simp [getArticleById, hdec]
          | some a =>
              have hne := hcompInvalid cd a rfl hdec
              have hfalse : (a.id == id && a.isPublic) = false := by
                by_cases h1 : a.id = id
                · by_cases h2 : a.isPublic = true
                  · exact absurd ⟨h1, h2⟩ hne
                  · simp [Bool.eq_false_iff.mpr h2]
                · simp [h1]
              simp [getArticleById, hdec, hfalse]
    constructor
    · intro sd a hsd hdec hid hpub
      subst hsd
      rw [hcompFall]
      simp [resolveSharedStage, hdec, hid, hpub]
    · intro hsharedInvalid
      rw [hcompFall]
      cases shared with
      | none => rfl
      | some sd =>
          cases hdec : decodeSharedParam sd with
          | none => simp [resolveSharedStage, hdec]
          | some a =>
              have hne := hsharedInvalid sd a rfl hdec
              have hfalse : (a.id == id && a.isPublic) = false := by
                by_cases h1 : a.id = id
                · by_cases h2 : a.isPublic = true
                  · exact absurd ⟨h1, h2⟩ hne
                  · simp [Bool.eq_false_iff.mpr h2]
                · simp [h1]
              simp [resolveSharedStage, hdec, hfalse]

set_option maxRecDepth 400000 in
set_option maxHeartbeats 2000000 in
/-- Witness for C9: a concrete compressed URL form resolves to its article. -/
theorem c9_url_resolution_witness :
    getArticleById (strCodes "article_1") none
      (some (generateShareableCompressed c4Article)) [] [] 0 = some c4Article :=
  (c9_url_resolution (strCodes "article_1")
      (some (generateShareableCompressed c4Article)) none [] [] 0).1
    (generateShareableCompressed c4Article) c4Article rfl (by decide)
    (by decide) (by decide)

/-! ### `createPayload` and the public-key recovery path of `article.ts` -/

/-- The `ArticleKey` record. -/
structure ArticleKey where
  key : List Nat
  articleId : List Nat
  isPublic : Bool
deriving DecidableEq

/-- The `ArticleMetadata` record. -/
structure ArticleMetadata where
  title : List Nat
  summary : Option (List Nat)
  tags : List (List Nat)
  image : Option (List Nat)
  isPublic : Bool
  price : Option Nat
  author : List Nat
  createdAt : Nat
  updatedAt : Nat
  contentSize : Nat
deriving DecidableEq

/-- The `EncryptedArticle` record. -/
structure EncryptedArticle where
  id : List Nat
  encryptedContent : List Nat
  nonce : List Nat
  metadata : ArticleMetadata
  txId : List Nat
deriving DecidableEq

/-- The `ArticlePayload` envelope; `key` is the property added only for
public articles (`none` models an absent JavaScript property). -/
structure ArticlePayload where
  type : List Nat
  version : List Nat
  data : EncryptedArticle
  key : Option (List Nat)
deriving DecidableEq

/-- `ArticleService.createPayload`: the `{type, version, data}` envelope,
plus the plaintext base64 key when the article is public. -/
def createPayload (encryptedArticle : EncryptedArticle)
    (key : Option ArticleKey) : ArticlePayload :=
  { type := strCodes "article"
    version := strCodes "1.0"
    data := encryptedArticle
    key := match key with
           | some k => if k.isPublic then some k.key else none
           | none => none }

/-- The `articleSignatures` localStorage map: article id to
(signature, payload).  The payload is stored as the parsed record; the
`JSON.stringify`/`JSON.parse` string layer is the identity on these records
and is elided. -/
def SignatureStore : Type := List (List Nat × (List Nat × ArticlePayload))

/-- The `articleTransactions` localStorage map: article id to
(txId, payload). -/
def TransactionStore : Type := List (List Nat × (List Nat × ArticlePayload))

/-- `storeArticleSignature`: JavaScript object assignment replaces any
previous entry for the id. -/
def storeArticleSignature (sigs : SignatureStore) (articleId signature : List Nat)
    (payload : ArticlePayload) : SignatureStore :=
  (articleId, (signature, payload)) ::
    List.filter (fun e => ¬(e.1 = articleId)) sigs

/-- `storeArticleWithTransaction`: same replacement semantics. -/
def storeArticleWithTransaction (txs : TransactionStore) (articleId txId : List Nat)
    (payload : ArticlePayload) : TransactionStore :=
  (articleId, (txId, payload)) ::
    List.filter (fun e => ¬(e.1 = articleId)) txs

/-- JavaScript `payload.key || null`: an absent or empty-string key gives
`null`. -/
def jsTruthyKey (k : Option (List Nat)) : Option (List Nat) :=
  match k with
  | some v => if v = [] then none else some v
  | none => none

/-- `extractKeyFromPublicPayload` (first revision, `article.ts` 334-358):
look in the signatures map, else the transactions map, and read
`payload.key || null`. -/
def extractKeyFromPublicPayload (sigs : SignatureStore) (txs : TransactionStore)
    (articleId : List Nat) : Option (List Nat) :=
  match List.find? (fun e => e.1 == articleId) sigs with
  | some e => jsTruthyKey e.2.2.key
  | none =>
      match List.find? (fun e => e.1 == articleId) txs with
      | some e => jsTruthyKey e.2.2.key
      | none => none

/-- **C8**: for a public article the publish payload embeds the plaintext
base64 key, and the recovery path re-extracts exactly that key from the
stored signature or transaction record; for a private article the payload
carries no key field. -/
theorem c8_public_payload_key (art : EncryptedArticle) (k : ArticleKey)
    (sigs : SignatureStore) (txs : TransactionStore) (sig τ : List Nat) :
    (k.isPublic = true → k.key ≠ [] →
      (createPayload art (some k)).key = some k.key ∧
      extractKeyFromPublicPayload
        (storeArticleSignature sigs art.id sig (createPayload art (some k)))
        txs art.id = some k.key ∧
      (List.find? (fun e => e.1 == art.id) sigs = none →
        extractKeyFromPublicPayload sigs
          (storeArticleWithTransaction txs art.id τ (createPayload art (some k)))
          art.id = some k.key)) ∧
    (k.isPublic = false → (createPayload art (some k)).key = none) := by
  constructor
  · intro hpub hne
    refine ⟨by simp [createPayload, hpub], ?_, ?_⟩
    · unfold extractKeyFromPublicPayload storeArticleSignature
      simp only [List.find?]
      rw [show ((art.id, (sig, createPayload art (some k))).1 == art.id) = true by simp]
      simp [createPayload, hpub, jsTruthyKey, hne]
    · intro hnone
      unfold extractKeyFromPublicPayload storeArticleWithTransaction
      rw [hnone]
      simp only [List.find?]
      rw [show ((art.id, (τ, createPayload art (some k))).1 == art.id) = true by simp]
      simp [createPayload, hpub, jsTruthyKey, hne]
  · intro hpriv
    simp [createPayload, hpriv]

/-- Witness for C8 at a concrete public article and key. -/
theorem c8_public_payload_key_witness :
    (createPayload
        { id := strCodes "article_1", encryptedContent := strCodes "ct",
          nonce := strCodes "nn",
          metadata := { title := strCodes "T", summary := none, tags := [],
                        image := none, isPublic := true, price := none,
                        author := strCodes "kaspa:qq", createdAt := 1,
                        updatedAt := 1, contentSize := 4 },
          txId := [] }
        (some { key := strCodes "KEY64", articleId := strCodes "article_1",
                isPublic := true })).key = some (strCodes "KEY64") ∧
    extractKeyFromPublicPayload
      (storeArticleSignature []
        (strCodes "article_1") (strCodes "sigbytes")
        (createPayload
          { id := strCodes "article_1", encryptedContent := strCodes "ct",
            nonce := strCodes "nn",
            metadata := { title := strCodes "T", summary := none, tags := [],
                          image := none, isPublic := true, price := none,
                          author := strCodes "kaspa:qq", createdAt := 1,
                          updatedAt := 1, contentSize := 4 },
            txId := [] }
          (some { key := strCodes "KEY64", articleId := strCodes "article_1",
                  isPublic := true })))
      [] (strCodes "article_1") = some (strCodes "KEY64") := by
  have h := (c8_public_payload_key
    { id := strCodes "article_1", encryptedContent := strCodes "ct",
      nonce := strCodes "nn",
      metadata := { title := strCodes "T", summary := none, tags := [],
                    image := none, isPublic := true, price := none,
                    author := strCodes "kaspa:qq", createdAt := 1,
                    updatedAt := 1, contentSize := 4 },
      txId := [] }
    { key := strCodes "KEY64", articleId := strCodes "article_1",
      isPublic := true }
    [] [] (strCodes "sigbytes") (strCodes "tx1")).1 (by decide) (by decide)
  exact ⟨h.1, h.2.1⟩

/-! ### `ArticleService.publishArticle` -/

/-- `JSON.stringify` of a string array. -/
def jsonStrArray (ts : List (List Nat)) : List Nat :=
  strCodes "[" ++
  (match ts with
   | [] => []
   | t :: rest => jsonQuote t ++ rest.flatMap (fun u => strCodes "," ++ jsonQuote u)) ++
  strCodes "]"

/-- `JSON.stringify` of an `ArticleMetadata` record (insertion order of the
object literal; `undefined` optional fields are omitted). -/
def metadataJson (md : ArticleMetadata) : List Nat :=
  strCodes "\x7b\"title\":" ++ jsonQuote md.title ++
  (match md.summary with
   | some s => strCodes ",\"summary\":" ++ jsonQuote s
   | none => []) ++
  strCodes ",\"tags\":" ++ jsonStrArray md.tags ++
  (match md.image with
   | some s => strCodes ",\"image\":" ++ jsonQuote s
   | none => []) ++
  strCodes ",\"isPublic\":" ++
  (if md.isPublic then strCodes "true" else strCodes "false") ++
  (match md.price with
   | some p => strCodes ",\"price\":" ++ decDigits p
   | none => []) ++
  strCodes ",\"author\":" ++ jsonQuote md.author ++
  strCodes ",\"createdAt\":" ++ decDigits md.createdAt ++
  strCodes ",\"updatedAt\":" ++ decDigits md.updatedAt ++
  strCodes ",\"contentSize\":" ++ decDigits md.contentSize ++
  strCodes "\x7d"

/-- `JSON.stringify` of an `EncryptedArticle` record. -/
def encryptedArticleJson (ea : EncryptedArticle) : List Nat :=
  strCodes "\x7b\"id\":" ++ jsonQuote ea.id ++
  strCodes ",\"encryptedContent\":" ++ jsonQuote ea.encryptedContent ++
  strCodes ",\"nonce\":" ++ jsonQuote ea.nonce ++
  strCodes ",\"metadata\":" ++ metadataJson ea.metadata ++
  strCodes ",\"txId\":" ++ jsonQuote ea.txId ++
  strCodes "\x7d"

/-- `JSON.stringify(payload)`. -/
def payloadJson (p : ArticlePayload) : List Nat :=
  strCodes "\x7b\"type\":" ++ jsonQuote p.type ++
  strCodes ",\"version\":" ++ jsonQuote p.version ++
  strCodes ",\"data\":" ++ encryptedArticleJson p.data ++
  (match p.key with
   | some k => strCodes ",\"key\":" ++ jsonQuote k
   | none => []) ++
  strCodes "\x7d"

/-- The `CreateArticleRequest` record. -/
structure CreateArticleRequest where
  title : List Nat
  content : List Nat
  summary : Option (List Nat)
  tags : List (List Nat)
  image : Option (List Nat)
  isPublic : Bool
  price : Option Nat
deriving DecidableEq

/-- The `PublishResult` record (optional TS fields as `Option`). -/
structure PublishResult where
  success : Bool
  articleId : Option (List Nat)
  txId : Option (List Nat)
  error : Option (List Nat)
deriving DecidableEq

/-- The wallet extension as an oracle: one pending outcome per operation of
this publish call. -/
structure WalletEnv where
  isInstalled : Bool
  accounts : Except (List Nat) (List (List Nat))
  signMessage : List Nat → Except (List Nat) (List Nat)
  sendKaspa : List Nat → Nat → Except (List Nat) (List Nat)

/-- A `{success: false, error}` result. -/
def mkFailure (e : List Nat) : PublishResult :=
  { success := false, articleId := none, txId := none, error := some e }

/-- A `{success: true, articleId, txId}` result. -/
def mkSuccess (aid tx : List Nat) : PublishResult :=
  { success := true, articleId := some aid, txId := some tx, error := none }

/-- The `Payload too large` message of `validatePayloadSize`. -/
def payloadTooLargeMsg (payloadBytes : Nat) : List Nat :=
  strCodes "Payload too large: " ++ decDigits payloadBytes ++
  strCodes " bytes (max: " ++ decDigits (50 * 1024) ++ strCodes " bytes)"

/-- The generated article id: `article_<Date.now()>_<random suffix>`. -/
def buildArticleId (now : Nat) (ridSuffix : List Nat) : List Nat :=
  strCodes "article_" ++ decDigits now ++ strCodes "_" ++ ridSuffix

/-- The metadata record built by `createEncryptedArticle`. -/
def buildMetadata (request : CreateArticleRequest) (author : List Nat)
    (now : Nat) : ArticleMetadata :=
  { title := request.title, summary := request.summary,
    tags := request.tags, image := request.image,
    isPublic := request.isPublic, price := request.price,
    author := author, createdAt := now, updatedAt := now,
    contentSize := (utf8Encode request.content).length }

/-- The encrypted-article record built by `createEncryptedArticle` (the
`txId` starts empty; the payload is serialized before it is assigned). -/
def buildEncryptedArticle (request : CreateArticleRequest) (author : List Nat)
    (now : Nat) (ridSuffix : List Nat) (encRes : EncryptionResult) :
    EncryptedArticle :=
  { id := buildArticleId now ridSuffix,
    encryptedContent := encRes.encryptedData,
    nonce := encRes.nonce,
    metadata := buildMetadata request author now,
    txId := [] }

/-- The `ArticleKey` built by `createEncryptedArticle`. -/
def buildArticleKey (request : CreateArticleRequest) (now : Nat)
    (ridSuffix : List Nat) (encRes : EncryptionResult) : ArticleKey :=
  { key := encRes.key, articleId := buildArticleId now ridSuffix,
    isPublic := request.isPublic }

/-- The serialized payload string signed and stored by `publishArticle`. -/
def buildPayloadString (request : CreateArticleRequest) (author : List Nat)
    (now : Nat) (ridSuffix : List Nat) (encRes : EncryptionResult) : List Nat :=
  payloadJson (createPayload
    (buildEncryptedArticle request author now ridSuffix encRes)
    (some (buildArticleKey request now ridSuffix encRes)))

/-- The `KASPA_ARTICLE:<id>:<payload>` message signed by the wallet. -/
def buildMessageToSign (request : CreateArticleRequest) (author : List Nat)
    (now : Nat) (ridSuffix : List Nat) (encRes : EncryptionResult) : List Nat :=
  strCodes "KASPA_ARTICLE:" ++ buildArticleId now ridSuffix ++ strCodes ":" ++
  buildPayloadString request author now ridSuffix encRes

/-- The sign-or-transact step of `publishArticle`: try `signMessage`; on
failure fall back to `sendKaspa` to the author's own address; a fallback
failure propagates to the outer catch. -/
def publishAttempt (env : WalletEnv) (request : CreateArticleRequest)
    (author : List Nat) (now : Nat) (ridSuffix : List Nat)
    (encRes : EncryptionResult) : PublishResult :=
  match env.signMessage (buildMessageToSign request author now ridSuffix encRes) with
  | Except.ok signature =>
      mkSuccess (buildArticleId now ridSuffix)
        (strCodes "sig_" ++ decDigits now ++ strCodes "_" ++ signature.take 16)
  | Except.error _ =>
      match env.sendKaspa author 100000 with
      | Except.ok txId => mkSuccess (buildArticleId now ridSuffix) txId
      | Except.error e => mkFailure e

/-- `ArticleService.publishArticle`.  Randomness (`generateKey`,
`generateNonce`, the article-id suffix) and `Date.now()` are explicit
parameters; wallet calls go through the oracle; every thrown error is
caught by the outer handler and becomes `{success: false, error}`.  The
localStorage writes affect later reads only and are modelled with the
stores of C8. -/
def publishArticle (env : WalletEnv) (keyBytes nonceBytes : List Nat)
    (now : Nat) (ridSuffix : List Nat) (request : CreateArticleRequest) :
    PublishResult :=
  if env.isInstalled = false then
    mkFailure (strCodes "KasWare wallet not installed")
  else
    match env.accounts with
    | Except.error e => mkFailure e
    | Except.ok accounts =>
      match accounts with
      | [] => mkFailure (strCodes "No wallet account connected")
      | author :: _ =>
        match validateArticleContent request.content with
        | Except.error e => mkFailure e
        | Except.ok _ =>
          match svcEncrypt keyBytes nonceBytes request.content with
          | none => mkFailure (strCodes "Failed to encrypt data")
          | some encRes =>
            if (utf8Encode (buildPayloadString request author now ridSuffix
                  encRes)).length > 50 * 1024 then
              mkFailure (payloadTooLargeMsg
                (utf8Encode (buildPayloadString request author now ridSuffix
                  encRes)).length)
            else publishAttempt env request author now ridSuffix encRes

set_option maxHeartbeats 1000000 in
/-- **C10**: `publishArticle` is total at its interface: every outcome is a
`PublishResult` (no exception escapes the outer handler); a failure carries
`success = false` with an error message and no article/tx id; a success
carries `success = true` with an article id and a non-empty txId (the
signature path prepends `sig_`; the transaction path returns the wallet's
txId, non-empty by the wallet hypothesis). -/
theorem c10_publish_result_shape (env : WalletEnv) (keyBytes nonceBytes : List Nat)
    (now : Nat) (ridSuffix : List Nat) (request : CreateArticleRequest)
    (hsend : ∀ addr amt tx, env.sendKaspa addr amt = Except.ok tx → tx ≠ []) :
    ((publishArticle env keyBytes nonceBytes now ridSuffix request).success = true →
      ∃ aid tx,
        (publishArticle env keyBytes nonceBytes now ridSuffix request).articleId =
          some aid ∧
        (publishArticle env keyBytes nonceBytes now ridSuffix request).txId =
          some tx ∧ tx ≠ [] ∧
        (publishArticle env keyBytes nonceBytes now ridSuffix request).error =
          none) ∧
    ((publishArticle env keyBytes nonceBytes now ridSuffix request).success = false →
      ∃ e,
        (publishArticle env keyBytes nonceBytes now ridSuffix request).error =
          some e ∧
        (publishArticle env keyBytes nonceBytes now ridSuffix request).articleId =
          none ∧
        (publishArticle env keyBytes nonceBytes now ridSuffix request).txId =
          none) := by
  generalize hr : publishArticle env keyBytes nonceBytes now ridSuffix request = r
  unfold publishArticle publishAttempt at hr
  repeat' split at hr
  all_goals subst hr
  all_goals
    first
      | (exact ⟨fun hs => Bool.noConfusion hs, fun _ => ⟨_, rfl, rfl, rfl⟩⟩)
      | (exact ⟨fun _ => ⟨_, _, rfl, rfl,
            List.append_ne_nil_of_left_ne_nil
              (List.append_ne_nil_of_left_ne_nil
                (List.append_ne_nil_of_left_ne_nil (by decide) _) _) _, rfl⟩,
          fun hs => Bool.noConfusion hs⟩)
      | (rename_i txId heq
         exact ⟨fun _ => ⟨_, _, rfl, rfl, hsend _ _ txId heq, rfl⟩,
           fun hs => Bool.noConfusion hs⟩)

/-- A concrete wallet environment: installed, one account, signing
succeeds, the fallback transaction is rejected. -/
def c10Env : WalletEnv :=
  { isInstalled := true,
    accounts := Except.ok [strCodes "kaspa:qq"],
    signMessage := fun _ => Except.ok (strCodes "deadbeefdeadbeefdeadbeef"),
    sendKaspa := fun _ _ => Except.error (strCodes "user rejected") }

/-- A concrete article-creation request. -/
def c10Request : CreateArticleRequest :=
  { title := strCodes "Title", content := strCodes "Body",
    summary := none, tags := [], image := none,
    isPublic := true, price := none }

theorem c10_publish_result_shape_witness :
    (∀ addr amt tx, c10Env.sendKaspa addr amt = Except.ok tx → tx ≠ []) ∧
    (((publishArticle c10Env (List.range 32) (List.range 12) 1700000000000
          (strCodes "abc12345") c10Request).success = true →
        ∃ aid tx,
          (publishArticle c10Env (List.range 32) (List.range 12) 1700000000000
            (strCodes "abc12345") c10Request).articleId = some aid ∧
          (publishArticle c10Env (List.range 32) (List.range 12) 1700000000000
            (strCodes "abc12345") c10Request).txId = some tx ∧ tx ≠ [] ∧
          (publishArticle c10Env (List.range 32) (List.range 12) 1700000000000
            (strCodes "abc12345") c10Request).error = none) ∧
      ((publishArticle c10Env (List.range 32) (List.range 12) 1700000000000
          (strCodes "abc12345") c10Request).success = false →
        ∃ e,
          (publishArticle c10Env (List.range 32) (List.range 12) 1700000000000
            (strCodes "abc12345") c10Request).error = some e ∧
          (publishArticle c10Env (List.range 32) (List.range 12) 1700000000000
            (strCodes "abc12345") c10Request).articleId = none ∧
          (publishArticle c10Env (List.range 32) (List.range 12) 1700000000000
            (strCodes "abc12345") c10Request).txId = none)) :=
  have h : ∀ addr amt tx, c10Env.sendKaspa addr amt = Except.ok tx → tx ≠ [] :=
    fun _ _ _ hx => by simp [c10Env] at hx
  ⟨h, c10_publish_result_shape c10Env (List.range 32) (List.range 12)
    1700000000000 (strCodes "abc12345") c10Request h⟩

/-! ### The short-URL service (`server.js` and `urlShortener.ts`) -/

/-- A row of the `short_urls` table.  The `CREATE TABLE` statement has
exactly these data columns (plus a bookkeeping `created_timestamp`
default); there is no column for an encryption key. -/
structure ShortRow where
  id : List Nat
  fullArticleId : List Nat
  title : List Nat
  author : List Nat
  createdAt : Nat
  contentHash : List Nat
  encryptedPayload : List Nat
  expiresAt : Nat
deriving DecidableEq

/-- The JSON body `createShortURL` POSTs to `/api/short`; it carries an
`encryptionKey` field (`Array.from(secondaryKey)`). -/
structure ShortPostBody where
  articleId : List Nat
  title : List Nat
  author : List Nat
  createdAt : Nat
  contentHash : List Nat
  encryptedPayload : List Nat
  encryptionKey : List Nat
deriving DecidableEq

/-- The observable outcome of the POST handler: the HTTP status, the
response's `shortId` and `encryptionKey` fields (`none` means the field is
absent from the response JSON, so the client destructures `undefined`), and
the table after the call. -/
structure ShortPostResult where
  status : Nat
  shortId : Option (List Nat)
  encryptionKey : Option (List Nat)
  db : List ShortRow
deriving DecidableEq

/-- The required-field check `!articleId || !title || !author || !createdAt
|| !contentHash || !encryptedPayload` under JavaScript truthiness: an empty
string and the number 0 are falsy; `encryptedPayload` arrives as a JSON
array and an array object is always truthy, so it contributes no case. -/
def shortPostMissing (b : ShortPostBody) : Bool :=
  b.articleId == [] || b.title == [] || b.author == [] ||
  b.createdAt == 0 || b.contentHash == []

/-- `app.post('/api/short')`: the required-field check, then the
existing-row lookup (`full_article_id = ? AND expires_at > ?`, responding
`{shortId: existingRow.id}`), otherwise an INSERT of a fresh row expiring 30
days out and the response `{shortId}`.  `freshId` stands for the id
`generateUniqueShortId()` produced.  No branch puts an `encryptionKey`
field into the response, and the INSERT's column list stores none. -/
def handleShortPost (db : List ShortRow) (now : Nat) (freshId : List Nat)
    (b : ShortPostBody) : ShortPostResult :=
  if shortPostMissing b then
    { status := 400, shortId := none, encryptionKey := none, db := db }
  else
    match db.find? (fun r =>
        r.fullArticleId == b.articleId && decide (now < r.expiresAt)) with
    | some row =>
        { status := 200, shortId := some row.id, encryptionKey := none,
          db := db }
    | none =>
        let row : ShortRow :=
          { id := freshId, fullArticleId := b.articleId,
            title := b.title, author := b.author,
            createdAt := b.createdAt, contentHash := b.contentHash,
            encryptedPayload := b.encryptedPayload,
            expiresAt := now + 30 * 24 * 60 * 60 * 1000 }
        { status := 200, shortId := some freshId, encryptionKey := none,
          db := db ++ [row] }

/-- The `^[a-zA-Z0-9]{8}$` short-id format test of the GET route. -/
def isShortIdFormat (l : List Nat) : Bool :=
  l.length == 8 && l.all (fun c =>
    decide ((48 ≤ c ∧ c ≤ 57) ∨ (65 ≤ c ∧ c ≤ 90) ∨ (97 ≤ c ∧ c ≤ 122)))

/-- `app.get('/api/short/:shortId')`: format check, then `SELECT * FROM
short_urls WHERE id = ? AND expires_at > ?`; `none` is any non-200
response. -/
def handleShortGet (db : List ShortRow) (now : Nat) (shortId : List Nat) :
    Option ShortRow :=
  if isShortIdFormat shortId then
    db.find? (fun r => r.id == shortId && decide (now < r.expiresAt))
  else none

/-- `hash = hash & hash` in JavaScript: wrap to a signed 32-bit integer. -/
def toInt32 (n : Int) : Int := (n + 2 ^ 31) % 2 ^ 32 - 2 ^ 31

/-- One step of `hashString`: `((hash << 5) - hash) + char` with the 32-bit
wrap (`<<` itself truncates to int32). -/
def hashStep (h : Int) (c : Nat) : Int :=
  toInt32 (toInt32 (h * 32) - h + c)

/-- Hexadecimal digit characters of `n`, most significant first;
fuel-bounded (`fuel ≥ n` suffices). -/
def natToHexAux : Nat → Nat → List Nat
  | 0, n => [hexDigitChar (n % 16)]
  | fuel + 1, n =>
      if n < 16 then [hexDigitChar n]
      else natToHexAux fuel (n / 16) ++ [hexDigitChar (n % 16)]

/-- `n.toString(16)` for a nonnegative number: lowercase hex digits. -/
def natToHex (n : Nat) : List Nat := natToHexAux n n

/-- `hash.toString(16)` of `hashString`: JavaScript renders a negative
int32 as `-` followed by the hex digits of its absolute value. -/
def intToHex (n : Int) : List Nat :=
  if n < 0 then 45 :: natToHex n.natAbs else natToHex n.toNat

/-- `URLShortenerService.hashString`: the rolling 31-multiplier hash over
the string's code units (equal to the scalar values for the BMP strings
modelled here), wrapped to int32 each step and rendered in hex. -/
def hashString (s : List Nat) : List Nat :=
  intToHex (s.foldl hashStep 0)

/-- `URLShortenerService.encryptForStorage`: the 12-byte random nonce is a
parameter; the stored blob is the nonce followed by
`chacha20poly1305(key, nonce).encrypt(utf8(data))`. -/
def encryptForStorage (data key nonce : List Nat) : List Nat :=
  nonce ++ aeadEncrypt key nonce (utf8Encode data)

/-- `URLShortenerService.decryptFromStorage`: split off the 12-byte nonce,
AEAD-open the rest and UTF-8-decode; `none` is the thrown
authentication-failure error. -/
def decryptFromStorage (enc key : List Nat) : Option (List Nat) :=
  match aeadDecrypt key (enc.take 12) (enc.drop 12) with
  | some pt => utf8Decode pt
  | none => none

/-- What `createShortURL` hands back: the short id and the `?k=` key of
the short URL, and the `?shared=` parameter of the full URL. -/
structure ShortURLResult where
  shortId : List Nat
  urlKey : List Nat
  sharedParam : List Nat
deriving DecidableEq

/-- `URLShortenerService.createShortURL`.  The fresh `secondaryKey`
(`randomBytes(32)`), the storage nonce and the id the server would mint are
explicit parameters; the server call is `handleShortPost` on the given
table.  Returns the outcome (`none` models a thrown error) together with
the table as the server left it.  `finalKey = encryptionKey ? new
Uint8Array(encryptionKey) : secondaryKey`: when the response has no
`encryptionKey` field the client falls back to its own fresh key. -/
def createShortURL (db : List ShortRow) (now : Nat) (freshId : List Nat)
    (secondaryKey nonce : List Nat) (article : MinArticle) :
    Option ShortURLResult × List ShortRow :=
  if article.isPublic = false then (none, db)
  else
    let resp := handleShortPost db now freshId
      { articleId := article.id, title := article.title,
        author := article.author, createdAt := article.createdAt,
        contentHash := hashString article.content,
        encryptedPayload :=
          encryptForStorage (compactShareJson article) secondaryKey nonce,
        encryptionKey := secondaryKey }
    if resp.status = 200 then
      match resp.shortId with
      | none => (none, resp.db)
      | some sid =>
        match btoaStr (fullShareJson article) with
        | none => (none, resp.db)
        | some sharedParam =>
            (some { shortId := sid,
                    urlKey := toUrlSafe (b64Encode
                      ((resp.encryptionKey).getD secondaryKey)),
                    sharedParam := sharedParam }, resp.db)
    else (none, resp.db)

/-- `URLShortenerService.resolveShortURL`: fetch the row, undo the URL-safe
key encoding (`- → +`, `_ → /`, re-pad, `atob`), decrypt the blob and
re-expand the compact fields; every failure path returns `null`. -/
def resolveShortURL (db : List ShortRow) (now : Nat)
    (shortId keyParam : List Nat) : Option MinArticle :=
  match handleShortGet db now shortId with
  | none => none
  | some row =>
    match b64Decode (fromUrlSafe keyParam) with
    | none => none
    | some keyBytes =>
      match decryptFromStorage row.encryptedPayload keyBytes with
      | none => none
      | some data => parseCompactShare data

/-- **C3**: the claim says the service persists the symmetric key it
receives alongside the ciphertext.  It does not: the handler's entire
observable behaviour — status, response fields and the resulting table —
is independent of the posted `encryptionKey` (the destructuring, the
required-field check and the INSERT all omit it, and the table has no key
column), and no response ever carries an `encryptionKey` field.  The
service therefore cannot decrypt any payload it stores. -/
theorem c3_server_never_persists_key (db : List ShortRow) (now : Nat)
    (freshId : List Nat) (b : ShortPostBody) (k1 k2 : List Nat) :
    handleShortPost db now freshId { b with encryptionKey := k1 } =
      handleShortPost db now freshId { b with encryptionKey := k2 } ∧
    (handleShortPost db now freshId b).encryptionKey = none := by
  constructor
  · rfl
  · unfold handleShortPost
    repeat' split
    all_goals rfl

/-- A small public article for the short-URL scenario. -/
def c2Article : MinArticle :=
  { id := strCodes "a1", title := strCodes "T", content := strCodes "Hi",
    author := strCodes "au", createdAt := 1700000000000,
    isPublic := true, image := none, txId := strCodes "x" }

/-- The `randomBytes(32)` secondary key of the first `createShortURL`. -/
def c2Key1 : List Nat := List.range 32

/-- The fresh secondary key of the second `createShortURL`. -/
def c2Key2 : List Nat := (List.range 32).map (· + 100)

/-- The storage nonce of both calls. -/
def c2Nonce : List Nat := List.range 12

/-- The first call against an empty table. -/
def c2Call1 : Option ShortURLResult × List ShortRow :=
  createShortURL [] 1700000000000 (strCodes "abcd1234") c2Key1 c2Nonce
    c2Article

/-- The second call for the same article against the resulting table. -/
def c2Call2 : Option ShortURLResult × List ShortRow :=
  createShortURL c2Call1.2 1700000000000 (strCodes "efgh5678") c2Key2
    c2Nonce c2Article

/-- The first call's outcome. -/
def c2Res1 : ShortURLResult := c2Call1.1.getD ⟨[], [], []⟩

/-- The second call's outcome. -/
def c2Res2 : ShortURLResult := c2Call2.1.getD ⟨[], [], []⟩

set_option maxRecDepth 1000000 in
set_option maxHeartbeats 4000000 in
/-- **C2**: the second `createShortURL` for a still-valid article id does
return the same `shortId`, but not the originally issued key: the server's
existing-row response carries no `encryptionKey`, so the client embeds its
fresh secondary key in the returned short URL, and that key cannot decrypt
the payload stored by the first call — resolving the second short URL
fails, while the first still works. -/
theorem c2_second_call_key_mismatch :
    c2Call1.1 = some c2Res1 ∧ c2Call2.1 = some c2Res2 ∧
    c2Res2.shortId = c2Res1.shortId ∧ c2Res2.urlKey ≠ c2Res1.urlKey ∧
    resolveShortURL c2Call2.2 1700000000000 c2Res2.shortId c2Res2.urlKey =
      none ∧
    resolveShortURL c2Call2.2 1700000000000 c2Res1.shortId c2Res1.urlKey =
      some c2Article := by
  decide
